import Mathlib

/-!
Shallow embedding of the bounded-map navigation subsystem of
Night-of-the-Blood-Moon: the `BoundedNavGrid` walkability raster
(src/maps/MapDebugOverlay.js) and the `FlowField` BFS distance/direction
field (src/maps/FlowField.js), together with proofs of the specified
properties.

JS numbers used as pixel coordinates, sizes and times are modelled as `ℤ`
(the game feeds integral pixel values; `Math.floor`/`Math.ceil` of a float
division become explicit floor/ceiling integer divisions); cell indices and
distances are `ℤ`/`ℕ`.  Typed arrays are modelled as `List`s with `getD`
access (matching the zero-extension/out-of-range behaviour the code relies
on only at in-range indices).  A missing/`undefined` JS value is modelled
as `Option.none`.
-/

/-- `Math.floor(a / b)` for integer-valued JS numbers. -/
def jsFloorDiv (a b : ℤ) : ℤ := Int.fdiv a b

/-- `Math.ceil(a / b)` for integer-valued JS numbers. -/
def jsCeilDiv (a b : ℤ) : ℤ := -Int.fdiv (-a) b

/-! ## NavGrid data model (class BoundedNavGrid, MapDebugOverlay.js) -/

structure NavGrid where
  cellSize : ℤ
  originX : ℤ
  originY : ℤ
  tileErodePx : ℤ
  paddingPx : ℤ
  pixelW : ℤ
  pixelH : ℤ
  w : ℤ
  h : ℤ
  walkable : List Bool

/-- `walkable` buffer size: `new Uint8Array(this.w * this.h)`. -/
def NavGrid.size (g : NavGrid) : ℕ := (g.w * g.h).toNat

/-- `idx(tx, ty) { return ty * this.w + tx; }` -/
def NavGrid.idx (g : NavGrid) (tx ty : ℤ) : ℤ := ty * g.w + tx

/-- Decode a nonnegative flat index to its cell x-coordinate (`i % w` on
nonnegative JS ints). -/
def NavGrid.cellX (g : NavGrid) (i : ℕ) : ℤ := (i % g.w.toNat : ℕ)

/-- Decode a nonnegative flat index to its cell y-coordinate (`(i / w) | 0` on
nonnegative JS ints). -/
def NavGrid.cellY (g : NavGrid) (i : ℕ) : ℤ := (i / g.w.toNat : ℕ)

/-- `inBounds(tx, ty) { return tx >= 0 && ty >= 0 && tx < this.w && ty < this.h; }` -/
def NavGrid.inBounds (g : NavGrid) (tx ty : ℤ) : Bool :=
  decide (0 ≤ tx) && decide (0 ≤ ty) && decide (tx < g.w) && decide (ty < g.h)

/-- `isWalkable(tx, ty)`: false if out of bounds, else `walkable[idx] === 1`. -/
def NavGrid.isWalkable (g : NavGrid) (tx ty : ℤ) : Bool :=
  g.inBounds tx ty && g.walkable.getD (g.idx tx ty).toNat false

/-- `worldToTile(x, y)`: floor against cell size and origin. -/
def NavGrid.worldToTile (g : NavGrid) (x y : ℤ) : ℤ × ℤ :=
  (jsFloorDiv (x - g.originX) g.cellSize, jsFloorDiv (y - g.originY) g.cellSize)

/-! ## NavGrid construction inputs -/

/-- The fields of the Phaser tilemap object that the constructor reads.
A `none` models a missing/`undefined` (hence NaN under `Number(...)`) field. -/
structure Tilemap where
  x : Option ℤ := none
  y : Option ℤ := none
  widthInPixels : Option ℤ := none
  heightInPixels : Option ℤ := none
  width : Option ℤ := none
  height : Option ℤ := none
  tileWidth : Option ℤ := none
  tileHeight : Option ℤ := none

/-- World-space rectangle returned by `tile.getBounds()`. -/
structure TileRect where
  x : ℤ
  y : ℤ
  width : ℤ
  height : ℤ

/-- A tile of a collision layer: its `collides` flag and its optional bounds. -/
structure LayerTile where
  collides : Bool
  bounds : Option TileRect

/-- `layer?.layer?.data`: rows of tiles; a `none` row/tile models a null entry. -/
structure CollisionLayer where
  data : Option (List (Option (List (Option LayerTile))))

/-- Obstacle rectangle input `{x, y, w, h}`; `none` fields model
missing/non-finite values (the `Number.isFinite` checks fail on them). -/
structure ObstacleRect where
  x : Option ℤ := none
  y : Option ℤ := none
  w : Option ℤ := none
  h : Option ℤ := none

/-- The constructor's option object (with its JS defaults). -/
structure NavGridOptions where
  tilemap : Option Tilemap := none
  collisionLayers : List CollisionLayer := []
  obstacleRects : List ObstacleRect := []
  cellSize : Option ℤ := none
  originX : Option ℤ := none
  originY : Option ℤ := none
  paddingPx : Option ℤ := none
  tileErodePx : Option ℤ := some 1
  obstacleRectsAreMapLocal : Bool := false
  deriveOriginFromTilemap : Bool := true

/-- `_stampBlockedRect(worldX, worldY, rw, rh)`: inflate by `paddingPx`,
convert to a clamped cell bounding box via floor/ceil, set covered cells to
blocked.  The in-place double loop over the clamped box is rendered as a map
over all cell indices (cells outside the box keep their value). -/
def stampBlockedRect (g : NavGrid) (worldX worldY rw rh : ℤ) : NavGrid :=
  let pad := g.paddingPx
  let x := (worldX - g.originX) - pad
  let y := (worldY - g.originY) - pad
  let ww := rw + pad * 2
  let hh := rh + pad * 2
  let minTx := max 0 (jsFloorDiv x g.cellSize)
  let maxTx := min (g.w - 1) (jsCeilDiv (x + ww) g.cellSize - 1)
  let minTy := max 0 (jsFloorDiv y g.cellSize)
  let maxTy := min (g.h - 1) (jsCeilDiv (y + hh) g.cellSize - 1)
  if maxTx < minTx ∨ maxTy < minTy then g
  else
    { g with walkable := (List.range g.size).map fun i =>
        let tx : ℤ := g.cellX i
        let ty : ℤ := g.cellY i
        if minTx ≤ tx ∧ tx ≤ maxTx ∧ minTy ≤ ty ∧ ty ≤ maxTy then false
        else g.walkable.getD i false }

/-- `_buildWalkableFromCollisionLayers()`: start all-walkable, then stamp each
colliding tile's (optionally eroded) world bounds. -/
def buildWalkableFromCollisionLayers (g0 : NavGrid) (layers : List CollisionLayer) : NavGrid :=
  if g0.w = 0 ∨ g0.h = 0 then g0
  else
    let g1 := { g0 with walkable := List.replicate g0.size true }
    layers.foldl (fun g layer =>
      match layer.data with
      | none => g
      | some rows => rows.foldl (fun g row =>
          match row with
          | none => g
          | some tiles => tiles.foldl (fun g tile =>
              match tile with
              | none => g
              | some t =>
                if !t.collides then g
                else match t.bounds with
                  | none => g
                  | some rect =>
                    let er := g.tileErodePx
                    if 0 < er then
                      let ex := rect.x + er
                      let ey := rect.y + er
                      let ew := rect.width - er * 2
                      let eh := rect.height - er * 2
                      if 0 < ew ∧ 0 < eh then stampBlockedRect g ex ey ew eh
                      else stampBlockedRect g rect.x rect.y rect.width rect.height
                    else stampBlockedRect g rect.x rect.y rect.width rect.height) g) g) g1

/-- `_applyObstacleRects()`: skip non-finite/degenerate rects, shift map-local
rects into world space, stamp. -/
def applyObstacleRects (g0 : NavGrid) (rects : List ObstacleRect) (mapLocal : Bool) : NavGrid :=
  if g0.w = 0 ∨ g0.h = 0 then g0
  else rects.foldl (fun g rect =>
    match rect.x, rect.y, rect.w, rect.h with
    | some x0, some y0, some rw, some rh =>
        if rw ≤ 0 ∨ rh ≤ 0 then g
        else
          let x := if mapLocal then x0 + g.originX else x0
          let y := if mapLocal then y0 + g.originY else y0
          stampBlockedRect g x y rw rh
    | _, _, _, _ => g) g0

/-- `_blockOutsideMapPixels()`: block every cell whose centre
`((t + 0.5) * cellSize)` lies at or beyond the map-local pixel extents.
The centre comparison `(t + 0.5) * cellSize >= pixels` (exact in JS floats for
integral inputs) is written doubled: `(2t + 1) * cellSize >= 2 * pixels`.
The in-place double loop is rendered as a map over all cell indices. -/
def blockOutsideMapPixels (g : NavGrid) : NavGrid :=
  if g.w = 0 ∨ g.h = 0 ∨ g.pixelW = 0 ∨ g.pixelH = 0 then g
  else
    { g with walkable := (List.range g.size).map fun i =>
        let tx : ℤ := g.cellX i
        let ty : ℤ := g.cellY i
        if (2 * tx + 1) * g.cellSize ≥ 2 * g.pixelW ∨ (2 * ty + 1) * g.cellSize ≥ 2 * g.pixelH
        then false
        else g.walkable.getD i false }

/-- `this.cellSize = Math.max(1, Number(cellSize) || 8)`. -/
def navCellSize (o : NavGridOptions) : ℤ :=
  max 1 (match o.cellSize with | none => 8 | some c => if c = 0 then 8 else c)

/-- Whether the origin is derived from the tilemap's world placement. -/
def navUseTilemapOrigin (o : NavGridOptions) : Bool :=
  o.deriveOriginFromTilemap && o.originX.isNone && o.originY.isNone
    && (o.tilemap.bind Tilemap.x).isSome && (o.tilemap.bind Tilemap.y).isSome

/-- `this.originX`: explicit origin, else tilemap x, else 0. -/
def navOriginX (o : NavGridOptions) : ℤ :=
  match o.originX with
  | some v => v
  | none => if navUseTilemapOrigin o then (o.tilemap.bind Tilemap.x).getD 0 else 0

/-- `this.originY`: explicit origin, else tilemap y, else 0. -/
def navOriginY (o : NavGridOptions) : ℤ :=
  match o.originY with
  | some v => v
  | none => if navUseTilemapOrigin o then (o.tilemap.bind Tilemap.y).getD 0 else 0

/-- `this.tileErodePx = Math.max(0, Number(tileErodePx) || 0)`. -/
def navTileErodePx (o : NavGridOptions) : ℤ :=
  max 0 (match o.tileErodePx with | none => 0 | some v => v)

/-- `this.paddingPx`: explicit (clamped at 0), else `ceil(cellSize * 0.75)`. -/
def navPaddingPx (o : NavGridOptions) : ℤ :=
  match o.paddingPx with
  | some p => max 0 p
  | none => jsCeilDiv (navCellSize o * 3) 4

/-- `tilemap?.widthInPixels ?? (tilemap?.width ?? 0) * (tilemap?.tileWidth ?? 0)`. -/
def navPixelW (o : NavGridOptions) : ℤ :=
  match o.tilemap with
  | none => 0
  | some tm => match tm.widthInPixels with
    | some v => v
    | none => tm.width.getD 0 * tm.tileWidth.getD 0

/-- `tilemap?.heightInPixels ?? (tilemap?.height ?? 0) * (tilemap?.tileHeight ?? 0)`. -/
def navPixelH (o : NavGridOptions) : ℤ :=
  match o.tilemap with
  | none => 0
  | some tm => match tm.heightInPixels with
    | some v => v
    | none => tm.height.getD 0 * tm.tileHeight.getD 0

/-- `this.w = Math.ceil(this.pixelW / this.cellSize)`. -/
def navW (o : NavGridOptions) : ℤ := jsCeilDiv (navPixelW o) (navCellSize o)

/-- `this.h = Math.ceil(this.pixelH / this.cellSize)`. -/
def navH (o : NavGridOptions) : ℤ := jsCeilDiv (navPixelH o) (navCellSize o)

/-- The grid state right after the field assignments of the constructor,
with the zero-initialised `walkable` buffer. -/
def navGridInit (o : NavGridOptions) : NavGrid :=
  { cellSize := navCellSize o, originX := navOriginX o, originY := navOriginY o
    tileErodePx := navTileErodePx o, paddingPx := navPaddingPx o
    pixelW := navPixelW o, pixelH := navPixelH o, w := navW o, h := navH o
    walkable := List.replicate (navW o * navH o).toNat false }

/-- The `BoundedNavGrid` constructor: derive cell size, origin, erosion,
padding and pixel extents from the options, size the grid by
`ceil(pixels / cellSize)`, then run the three build passes in order. -/
def mkNavGrid (o : NavGridOptions) : NavGrid :=
  blockOutsideMapPixels
    (applyObstacleRects
      (buildWalkableFromCollisionLayers (navGridInit o) o.collisionLayers)
      o.obstacleRects o.obstacleRectsAreMapLocal)

/-! ## Nearest-walkable ring search -/

/-- The cells of the radius-`r` ring around the origin, in the order the code
probes them: for `dx = -r..r` the top cell then the bottom cell, then for
`dy = -r+1..r-1` the left cell then the right cell. -/
def ringOffsets (r : ℕ) : List (ℤ × ℤ) :=
  ((List.range (2 * r + 1)).flatMap fun k =>
    let dx : ℤ := (k : ℤ) - (r : ℤ)
    [(dx, -(r : ℤ)), (dx, (r : ℤ))]) ++
  ((List.range (2 * r - 1)).flatMap fun k =>
    let dy : ℤ := (k : ℤ) - ((r : ℤ) - 1)
    [(-(r : ℤ), dy), ((r : ℤ), dy)])

/-- The shared ring loop of `findNearestWalkableTile` /
`FlowField._findNearestWalkable`: rings `r = 1..R`, first in-bounds walkable
cell wins. -/
def ringScan (g : NavGrid) (tx ty : ℤ) (R : ℕ) : Option (ℤ × ℤ) :=
  (List.range R).findSome? fun k =>
    (ringOffsets (k + 1)).findSome? fun c =>
      let nx := tx + c.1
      let ny := ty + c.2
      if g.inBounds nx ny && g.isWalkable nx ny then some (nx, ny) else none

/-- `FlowField._findNearestWalkable(tx, ty, maxR = 24)`: the same ring loop,
but without the `inBounds` pre-check of the NavGrid variant. -/
def findNearestWalkableFF (g : NavGrid) (tx ty : ℤ) (maxR : ℤ) : Option (ℤ × ℤ) :=
  if g.isWalkable tx ty then some (tx, ty)
  else ringScan g tx ty (max 0 maxR).toNat

/-- `findNearestWalkableTile(tx, ty, maxR = 6)` (BoundedNavGrid). -/
def NavGrid.findNearestWalkableTile (g : NavGrid) (tx ty : ℤ) (maxR : ℤ) : Option (ℤ × ℤ) :=
  if !g.inBounds tx ty then none
  else if g.isWalkable tx ty then some (tx, ty)
  else ringScan g tx ty (max 0 maxR).toNat

/-- Modelled from the spec's words, for comparison with the code's scan order
(claim C2): scan each ring's perimeter as "the whole top edge, then the whole
bottom edge, then the left/right edges excluding the already-visited
corners". -/
def specRingOffsets (r : ℕ) : List (ℤ × ℤ) :=
  ((List.range (2 * r + 1)).map fun k => (((k : ℤ) - (r : ℤ)), -(r : ℤ))) ++
  ((List.range (2 * r + 1)).map fun k => (((k : ℤ) - (r : ℤ)), (r : ℤ))) ++
  ((List.range (2 * r - 1)).flatMap fun k =>
    let dy : ℤ := (k : ℤ) - ((r : ℤ) - 1)
    [(-(r : ℤ), dy), ((r : ℤ), dy)])

/-- Modelled from the spec's words (claim C2): the nearest-walkable search
using `specRingOffsets` as the per-ring scan order. -/
def findNearestWalkableSpecOrder (g : NavGrid) (tx ty : ℤ) (maxR : ℤ) : Option (ℤ × ℤ) :=
  if !g.inBounds tx ty then none
  else if g.isWalkable tx ty then some (tx, ty)
  else (List.range (max 0 maxR).toNat).findSome? fun k =>
    (specRingOffsets (k + 1)).findSome? fun c =>
      let nx := tx + c.1
      let ny := ty + c.2
      if g.inBounds nx ny && g.isWalkable nx ny then some (nx, ny) else none

/-! ## FlowField data model (class FlowField, FlowField.js) -/

/-- The FlowField state: distance/direction buffers, requested/built target
bookkeeping, throttle timestamp and the tunables set in the constructor.
Direction codes: 0 none, 1 up, 2 right, 3 down, 4 left, 5 up-right,
6 down-right, 7 down-left, 8 up-left. -/
structure FlowField where
  dist : List ℤ
  dir : List ℤ
  lastRequestedTargetIdx : ℤ := -1
  lastBuiltTargetIdx : ℤ := -1
  nextAllowedRebuildMs : ℤ := 0
  minRebuildGapMs : ℤ := 200
  useDiagonals : Bool := true
  noCornerCutting : Bool := true
  nearestWalkableMaxR : ℤ := 24
  heroFootprintPx : ℤ := 32
  heroFootprintPreferCenter : Bool := true

/-- The FlowField constructor: zero-filled `Int32Array`/`Int8Array` buffers of
`n = w * h` entries and the defaulted tunables. -/
def FlowField.init (g : NavGrid) : FlowField :=
  { dist := List.replicate g.size 0, dir := List.replicate g.size 0 }

/-- `canStepDiag(cx, cy, nx, ny)`: with no-corner-cutting, a diagonal step is
allowed only when both flanking orthogonal neighbours are walkable. -/
def canStepDiag (g : NavGrid) (noCC : Bool) (cx cy nx ny : ℤ) : Bool :=
  if !noCC then true
  else
    let dx := nx - cx
    let dy := ny - cy
    g.isWalkable (cx + dx) cy && g.isWalkable cx (cy + dy)

/-- The neighbour probes of the BFS loop, in source order: 4-way, then the
four diagonals when diagonals are enabled.  Third component: `isDiag`. -/
def neighborCands (cx cy : ℤ) (allowDiag : Bool) : List (ℤ × ℤ × Bool) :=
  [(cx, cy - 1, false), (cx + 1, cy, false), (cx, cy + 1, false), (cx - 1, cy, false)] ++
  (if allowDiag then
    [(cx + 1, cy - 1, true), (cx + 1, cy + 1, true), (cx - 1, cy + 1, true), (cx - 1, cy - 1, true)]
  else [])

/-- The BFS `visit` closure: skip out-of-bounds, blocked, corner-cutting
diagonal, or already-visited cells; otherwise set `dist = curD + 1` and
append the cell to the newly-enqueued list. -/
def bfsVisit (g : NavGrid) (noCC : Bool) (cx cy : ℤ) (curD : ℤ)
    (st : List ℤ × List ℕ) (nx ny : ℤ) (isDiag : Bool) : List ℤ × List ℕ :=
  if !g.inBounds nx ny then st
  else if !g.isWalkable nx ny then st
  else if isDiag && !canStepDiag g noCC cx cy nx ny then st
  else
    let ni := (g.idx nx ny).toNat
    if st.1.getD ni 0 != -1 then st
    else (st.1.set ni (curD + 1), st.2 ++ [ni])

/-- One dequeue of the BFS loop: visit the popped cell's neighbour probes in
source order, returning the updated distances and the newly-enqueued cells. -/
def bfsStepNeighbors (g : NavGrid) (noCC allowDiag : Bool)
    (dist : List ℤ) (cur : ℕ) : List ℤ × List ℕ :=
  let cx : ℤ := g.cellX cur
  let cy : ℤ := g.cellY cur
  let curD := dist.getD cur (-1)
  (neighborCands cx cy allowDiag).foldl
    (fun st c => bfsVisit g noCC cx cy curD st c.1 c.2.1 c.2.2) (dist, [])

/-- The fuelled BFS worklist loop (`while (head < tail)`).  `pending` is the
queue segment `[head, tail)`; `emitted` is the full queue contents `[0, tail)`
(every index ever enqueued, in order).  The fuel is an upper bound on the
number of dequeues; `rebuildFromTargetIdx` passes enough for the loop to run
to completion. -/
def bfsLoop (g : NavGrid) (noCC allowDiag : Bool) :
    ℕ → List ℤ → List ℕ → List ℕ → List ℤ × List ℕ × List ℕ
  | 0, dist, pending, emitted => (dist, pending, emitted)
  | fuel + 1, dist, pending, emitted =>
    match pending with
    | [] => (dist, [], emitted)
    | cur :: rest =>
        let s := bfsStepNeighbors g noCC allowDiag dist cur
        bfsLoop g noCC allowDiag fuel s.1 (rest ++ s.2) (emitted ++ s.2)

/-- Walkability of a cell given by flat index. -/
def walkI (g : NavGrid) (i : ℕ) : Bool := g.isWalkable (g.cellX i) (g.cellY i)

/-- The direction-pass candidates of a cell, in precedence order
(up, right, down, left, then the four diagonals when enabled):
`(nx, ny, dirCode, isDiag)`. -/
def dirCands (tx ty : ℤ) (allowDiag : Bool) : List (ℤ × ℤ × ℤ × Bool) :=
  [(tx, ty - 1, 1, false), (tx + 1, ty, 2, false), (tx, ty + 1, 3, false), (tx - 1, ty, 4, false)] ++
  (if allowDiag then
    [(tx + 1, ty - 1, 5, true), (tx + 1, ty + 1, 6, true),
     (tx - 1, ty + 1, 7, true), (tx - 1, ty - 1, 8, true)]
  else [])

/-- The direction pass's `consider` closure: keep the running best
`(bestD, bestDir)`, replaced on a strictly smaller discovered distance. -/
def considerStep (g : NavGrid) (noCC allowDiag : Bool) (dist : List ℤ) (tx ty : ℤ)
    (best : ℤ × ℤ) (c : ℤ × ℤ × ℤ × Bool) : ℤ × ℤ :=
  let nx := c.1
  let ny := c.2.1
  let dirCode := c.2.2.1
  let isDiag := c.2.2.2
  if !g.inBounds nx ny then best
  else if !g.isWalkable nx ny then best
  else if isDiag && allowDiag && noCC && !canStepDiag g noCC tx ty nx ny then best
  else
    let nd := dist.getD (g.idx nx ny).toNat (-1)
    if 0 ≤ nd ∧ nd < best.1 then (nd, dirCode) else best

/-- The direction chosen for one walkable cell with `dist = dHere > 0`. -/
def pickDir (g : NavGrid) (noCC allowDiag : Bool) (dist : List ℤ) (tx ty : ℤ) (dHere : ℤ) : ℤ :=
  ((dirCands tx ty allowDiag).foldl (considerStep g noCC allowDiag dist tx ty) (dHere, 0)).2

/-- The direction pass over all cells: unwalkable, unreached (`dist < 0`) and
seed (`dist = 0`) cells keep direction 0; the in-place double loop is rendered
as a map over all cell indices. -/
def buildDirField (g : NavGrid) (noCC allowDiag : Bool) (dist : List ℤ) : List ℤ :=
  (List.range g.size).map fun i =>
    let tx : ℤ := g.cellX i
    let ty : ℤ := g.cellY i
    if !g.isWalkable tx ty then 0
    else
      let dHere := dist.getD i (-1)
      if dHere < 0 then 0
      else if dHere = 0 then 0
      else pickDir g noCC allowDiag dist tx ty dHere

/-- `rebuildFromTargetIdx(targetIdx)`: reset both fields, seed the BFS at the
target cell if walkable, flood fill, then run the direction pass. -/
def FlowField.rebuildFromTargetIdx (g : NavGrid) (ff : FlowField) (targetIdx : ℕ) : FlowField :=
  if g.w = 0 ∨ g.h = 0 then ff
  else
    let dist0 : List ℤ := List.replicate g.size (-1)
    let dir0 : List ℤ := List.replicate g.size 0
    let tTx : ℤ := g.cellX targetIdx
    let tTy : ℤ := g.cellY targetIdx
    if !g.isWalkable tTx tTy then { ff with dist := dist0, dir := dir0 }
    else
      let dist1 := dist0.set targetIdx 0
      let fuel := dist1.countP (· == -1) + 1
      let s := bfsLoop g ff.noCornerCutting ff.useDiagonals fuel dist1 [targetIdx] [targetIdx]
      { ff with dist := s.1, dir := buildDirField g ff.noCornerCutting ff.useDiagonals s.1 }

/-- The list of cells ever enqueued by the BFS of `rebuildFromTargetIdx`
(the contents of the fixed-capacity `_queue` buffer up to the write cursor);
empty on the paths where `rebuildFromTargetIdx` does not run the BFS. -/
def FlowField.rebuildEnqueued (g : NavGrid) (ff : FlowField) (targetIdx : ℕ) : List ℕ :=
  if g.w = 0 ∨ g.h = 0 then []
  else if !g.isWalkable (g.cellX targetIdx) (g.cellY targetIdx) then []
  else
    let dist1 := (List.replicate g.size (-1 : ℤ)).set targetIdx 0
    let fuel := dist1.countP (· == -1) + 1
    (bfsLoop g ff.noCornerCutting ff.useDiagonals fuel dist1 [targetIdx] [targetIdx]).2.2

/-! ## Seed resolution and updateTarget -/

/-- The footprint window offsets `(dx, dy)`, `dy` outer from `-half` to
`half - 1`, `dx` inner over the same range. -/
def footprintOffsets (half : ℕ) : List (ℤ × ℤ) :=
  (List.range (2 * half)).flatMap fun ky =>
    (List.range (2 * half)).map fun kx => ((kx : ℤ) - (half : ℤ), (ky : ℤ) - (half : ℤ))

/-- The footprint loop of `_findWalkableInHeroFootprint`: first walkable cell
when `preferCenter` is off, else the walkable cell with the smallest
distance-to-centre score `dx*dx + dy*dy` (first wins ties). -/
def footprintScan (g : NavGrid) (preferCenter : Bool) (tx ty : ℤ) :
    List (ℤ × ℤ) → Option ((ℤ × ℤ) × ℤ) → Option (ℤ × ℤ)
  | [], best => best.map Prod.fst
  | c :: rest, best =>
      let nx := tx + c.1
      let ny := ty + c.2
      if !g.inBounds nx ny then footprintScan g preferCenter tx ty rest best
      else if !g.isWalkable nx ny then footprintScan g preferCenter tx ty rest best
      else if !preferCenter then some (nx, ny)
      else
        let score := c.1 * c.1 + c.2 * c.2
        match best with
        | none => footprintScan g preferCenter tx ty rest (some ((nx, ny), score))
        | some b =>
            if score < b.2 then footprintScan g preferCenter tx ty rest (some ((nx, ny), score))
            else footprintScan g preferCenter tx ty rest best

/-- `_findWalkableInHeroFootprint(tx, ty)`: search a footprint window of
half-width `floor((heroFootprintPx / 2) / cellSize)` cells centred on the
requested cell. -/
def FlowField.findWalkableInHeroFootprint (g : NavGrid) (ff : FlowField) (tx ty : ℤ) :
    Option (ℤ × ℤ) :=
  let cellSize : ℤ := if g.cellSize = 0 then 8 else g.cellSize
  let fpPx : ℤ := max 0 ff.heroFootprintPx
  if fpPx ≤ 0 then none
  else
    let half : ℕ := (jsFloorDiv fpPx (2 * cellSize)).toNat
    footprintScan g ff.heroFootprintPreferCenter tx ty (footprintOffsets half) none

/-- `_resolveBuildTargetIdx(tx, ty)`: footprint window first, then the
expanding-ring nearest-walkable fallback. -/
def FlowField.resolveBuildTargetIdx (g : NavGrid) (ff : FlowField) (tx ty : ℤ) : Option ℕ :=
  if g.w = 0 ∨ g.h = 0 then none
  else match ff.findWalkableInHeroFootprint g tx ty with
    | some fp => some (g.idx fp.1 fp.2).toNat
    | none =>
        match findNearestWalkableFF g tx ty ff.nearestWalkableMaxR with
        | some fd => some (g.idx fd.1 fd.2).toNat
        | none => none

/-- The `builtOk` test of `updateTargetTile`: the last built seed is a valid
index whose distance is still 0. -/
def FlowField.builtOk (ff : FlowField) : Bool :=
  decide (0 ≤ ff.lastBuiltTargetIdx) && decide (ff.lastBuiltTargetIdx < (ff.dist.length : ℤ))
    && (ff.dist.getD ff.lastBuiltTargetIdx.toNat 0 == 0)

/-- The throttle-gate state change of `updateTargetTile`: when not forced,
advance the next-allowed-rebuild timestamp by the configured minimum gap. -/
def FlowField.afterThrottle (ff : FlowField) (nowMs : ℤ) (force : Bool) : FlowField :=
  if force then ff else { ff with nextAllowedRebuildMs := nowMs + ff.minRebuildGapMs }

/-- `updateTargetTile(tx, ty, nowMs, {force})`: bounds guard, no-op fast path,
throttle gate, seed resolution, then clear (seed unresolved) or rebuild. -/
def FlowField.updateTargetTile (g : NavGrid) (ff : FlowField) (tx ty : ℤ) (nowMs : ℤ)
    (force : Bool) : FlowField :=
  if !g.inBounds tx ty then ff
  else
    let requestedIdx := g.idx tx ty
    if !force && requestedIdx == ff.lastRequestedTargetIdx && ff.builtOk then ff
    else if !force && decide (nowMs < ff.nextAllowedRebuildMs) then ff
    else
      let ff2 := { ff.afterThrottle nowMs force with lastRequestedTargetIdx := requestedIdx }
      match ff2.resolveBuildTargetIdx g tx ty with
      | none =>
          { ff2 with lastBuiltTargetIdx := -1
                     dist := List.replicate ff2.dist.length (-1)
                     dir := List.replicate ff2.dir.length 0 }
      | some builtIdx =>
          FlowField.rebuildFromTargetIdx g { ff2 with lastBuiltTargetIdx := (builtIdx : ℤ) } builtIdx

/-- `updateTargetWorld(x, y, nowMs, opts)`. -/
def FlowField.updateTargetWorld (g : NavGrid) (ff : FlowField) (x y : ℤ) (nowMs : ℤ)
    (force : Bool) : FlowField :=
  let t := g.worldToTile x y
  ff.updateTargetTile g t.1 t.2 nowMs force

/-- Whether a call to `updateTargetTile` with these arguments reaches
`rebuildFromTargetIdx` (i.e. performs a rebuild rather than a no-op,
a throttled skip, or a clear). -/
def FlowField.didRebuild (g : NavGrid) (ff : FlowField) (tx ty : ℤ) (nowMs : ℤ)
    (force : Bool) : Bool :=
  g.inBounds tx ty
    && !(!force && g.idx tx ty == ff.lastRequestedTargetIdx && ff.builtOk)
    && !(!force && decide (nowMs < ff.nextAllowedRebuildMs))
    && (ff.resolveBuildTargetIdx g tx ty).isSome

/-- `distance(cellX, cellY)` as read by consumers: `flow.dist[nav.idx(tx, ty)]`. -/
def FlowField.distanceAt (g : NavGrid) (ff : FlowField) (tx ty : ℤ) : ℤ :=
  ff.dist.getD (g.idx tx ty).toNat (-1)

/-- `direction(cellX, cellY)` as read by consumers: `flow.dir[nav.idx(tx, ty)]`. -/
def FlowField.directionAt (g : NavGrid) (ff : FlowField) (tx ty : ℤ) : ℤ :=
  ff.dir.getD (g.idx tx ty).toNat 0

/-! ## Basic list and indexing lemmas -/

/-! ## Concrete grids and auxiliary definitions used by the theorems -/

def c1Opts : NavGridOptions :=
  { tilemap := some { widthInPixels := some 13, heightInPixels := some 8 } }

def c1wOpts : NavGridOptions :=
  { tilemap := some { widthInPixels := some 12, heightInPixels := some 8 } }

/-- The full probe order of `findNearestWalkableTile`: the requested cell,
then each ring `r = 1, 2, …, R` in the code's per-ring order. -/
def searchCells (tx ty : ℤ) (R : ℕ) : List (ℤ × ℤ) :=
  (tx, ty) :: (List.range R).flatMap fun k =>
    (ringOffsets (k + 1)).map fun c => (tx + c.1, ty + c.2)

def c2Grid : NavGrid :=
  { cellSize := 8, originX := 0, originY := 0, tileErodePx := 1, paddingPx := 6
    pixelW := 24, pixelH := 24, w := 3, h := 3
    walkable := [false, true, false, false, false, false, true, false, false] }

def c8Grid : NavGrid :=
  { cellSize := 8, originX := 0, originY := 0, tileErodePx := 1, paddingPx := 6
    pixelW := 8, pixelH := 8, w := 1, h := 1, walkable := [false] }

def c3Grid : NavGrid :=
  { cellSize := 8, originX := 0, originY := 0, tileErodePx := 1, paddingPx := 6
    pixelW := 32, pixelH := 32, w := 4, h := 4, walkable := List.replicate 16 true }

/-- The `consider` closure's admissibility checks for one candidate
`(nx, ny, dirCode, isDiag)`. -/
def considerOk (g : NavGrid) (noCC allowDiag : Bool) (tx ty : ℤ)
    (c : ℤ × ℤ × ℤ × Bool) : Bool :=
  g.inBounds c.1 c.2.1 && g.isWalkable c.1 c.2.1 &&
    !(c.2.2.2 && allowDiag && noCC && !canStepDiag g noCC tx ty c.1 c.2.1)

/-- The discovered distance of a candidate's cell. -/
def cVal (g : NavGrid) (dist : List ℤ) (c : ℤ × ℤ × ℤ × Bool) : ℤ :=
  dist.getD (g.idx c.1 c.2.1).toNat (-1)

def dummyCand : ℤ × ℤ × ℤ × Bool := (0, 0, 0, false)

/-- Invariant of the neighbour-visiting fold of one BFS dequeue: `st.2` lists
the newly enqueued cells, each freshly set from `-1` to `curD + 1`, nothing
else changed. -/
structure VisitOk (g : NavGrid) (noCC allowDiag : Bool) (cx cy : ℤ) (curD : ℤ)
    (dist0 : List ℤ) (st : List ℤ × List ℕ) : Prop where
  len : st.1.length = dist0.length
  untouched : ∀ j : ℕ, j ∉ st.2 → st.1.getD j (-1) = dist0.getD j (-1)
  fresh : ∀ j ∈ st.2, dist0.getD j (-1) = -1
  val : ∀ j ∈ st.2, st.1.getD j (-1) = curD + 1
  lt : ∀ j ∈ st.2, j < dist0.length
  walk : ∀ j ∈ st.2, walkI g j = true
  nodup : st.2.Nodup
  adj : ∀ j ∈ st.2, ∃ c ∈ neighborCands cx cy allowDiag,
    j = (g.idx c.1 c.2.1).toNat ∧ g.inBounds c.1 c.2.1 = true ∧
    g.isWalkable c.1 c.2.1 = true ∧
    (c.2.2 = true → canStepDiag g noCC cx cy c.1 c.2.1 = true)
  cnt : st.1.countP (· == -1) + st.2.length = dist0.countP (· == -1)

/-- Invariant of the BFS worklist loop.  `emitted` is everything ever
enqueued (in enqueue order); `pending` is its not-yet-dequeued suffix. -/
structure LoopInv (g : NavGrid) (noCC allowDiag : Bool) (seed : ℕ)
    (dist : List ℤ) (pending emitted : List ℕ) : Prop where
  len : dist.length = g.size
  split : ∃ processed, emitted = processed ++ pending ∧
    ∀ u ∈ processed, ∀ c ∈ neighborCands (g.cellX u) (g.cellY u) allowDiag,
      g.inBounds c.1 c.2.1 = true → g.isWalkable c.1 c.2.1 = true →
      (c.2.2 = true → canStepDiag g noCC (g.cellX u) (g.cellY u) c.1 c.2.1 = true) →
      0 ≤ dist.getD (g.idx c.1 c.2.1).toNat (-1) ∧
      dist.getD (g.idx c.1 c.2.1).toNat (-1) ≤ dist.getD u (-1) + 1
  mem_lt : ∀ i ∈ emitted, i < g.size
  mem_walk : ∀ i ∈ emitted, walkI g i = true
  mem_nonneg : ∀ i ∈ emitted, 0 ≤ dist.getD i (-1)
  unvisited : ∀ i : ℕ, i ∉ emitted → dist.getD i (-1) = -1
  nodup : emitted.Nodup
  mono : List.Pairwise (fun a b => dist.getD a (-1) ≤ dist.getD b (-1)) emitted
  band : ∀ p ∈ pending.head?, ∀ v ∈ emitted, dist.getD v (-1) ≤ dist.getD p (-1) + 1
  parent : ∀ v ∈ emitted, v ≠ seed →
    ∃ u : ℕ, u < g.size ∧ walkI g u = true ∧ 0 ≤ dist.getD u (-1) ∧
      dist.getD v (-1) = dist.getD u (-1) + 1 ∧
      ∃ c ∈ neighborCands (g.cellX u) (g.cellY u) allowDiag,
        v = (g.idx c.1 c.2.1).toNat ∧ g.inBounds c.1 c.2.1 = true ∧
        (c.2.2 = true → canStepDiag g noCC (g.cellX u) (g.cellY u) c.1 c.2.1 = true)
  seed_mem : seed ∈ emitted
  seed_zero : dist.getD seed (-1) = 0
  pos : ∀ v ∈ emitted, v ≠ seed → 1 ≤ dist.getD v (-1)

theorem getD_map_range {α : Type} (n i : ℕ) (f : ℕ → α) (d : α) (h : i < n) :
    ((List.range n).map f).getD i d = f i := by
  rw [List.getD_eq_getElem?_getD, List.getElem?_map, List.getElem?_range h]
  rfl

theorem getD_set_self (l : List ℤ) (i : ℕ) (v d : ℤ) (h : i < l.length) :
    (l.set i v).getD i d = v := by
  rw [List.getD_eq_getElem?_getD, List.getElem?_set_self h]
  rfl

theorem getD_set_ne (l : List ℤ) (i j : ℕ) (v d : ℤ) (h : i ≠ j) :
    (l.set i v).getD j d = l.getD j d := by
  rw [List.getD_eq_getElem?_getD, List.getElem?_set_ne h, List.getD_eq_getElem?_getD]

theorem getD_replicate {α : Type} (n i : ℕ) (v d : α) (h : i < n) :
    (List.replicate n v).getD i d = v := by
  rw [List.getD_eq_getElem?_getD, List.getElem?_replicate, if_pos h]
  rfl

theorem getD_out_of_range {α : Type} (l : List α) (i : ℕ) (d : α) (h : l.length ≤ i) :
    l.getD i d = d := by
  rw [List.getD_eq_getElem?_getD, List.getElem?_eq_none (by omega)]
  rfl

theorem NavGrid.inBounds_iff (g : NavGrid) (tx ty : ℤ) :
    g.inBounds tx ty = true ↔ 0 ≤ tx ∧ 0 ≤ ty ∧ tx < g.w ∧ ty < g.h := by
  simp only [NavGrid.inBounds, Bool.and_eq_true, decide_eq_true_eq]
  tauto

theorem NavGrid.isWalkable_inBounds (g : NavGrid) (tx ty : ℤ) (h : g.isWalkable tx ty = true) :
    g.inBounds tx ty = true := by
  simp only [NavGrid.isWalkable, Bool.and_eq_true] at h
  exact h.1

theorem NavGrid.size_eq (g : NavGrid) (hw : 0 ≤ g.w) (hh : 0 ≤ g.h) :
    g.size = g.w.toNat * g.h.toNat := by
  unfold NavGrid.size
  have h1 : g.w * g.h = ((g.w.toNat * g.h.toNat : ℕ) : ℤ) := by
    push_cast
    rw [Int.toNat_of_nonneg hw, Int.toNat_of_nonneg hh]
  rw [h1, Int.toNat_natCast]

theorem NavGrid.toNat_idx (g : NavGrid) (tx ty : ℤ) (h : g.inBounds tx ty = true) :
    (g.idx tx ty).toNat = ty.toNat * g.w.toNat + tx.toNat := by
  rw [NavGrid.inBounds_iff] at h
  obtain ⟨h1, h2, h3, h4⟩ := h
  have hw : 0 ≤ g.w := by omega
  have he : g.idx tx ty = ((ty.toNat * g.w.toNat + tx.toNat : ℕ) : ℤ) := by
    unfold NavGrid.idx
    push_cast
    rw [Int.toNat_of_nonneg h2, Int.toNat_of_nonneg hw, Int.toNat_of_nonneg h1]
  rw [he, Int.toNat_natCast]

theorem NavGrid.toNat_idx_lt (g : NavGrid) (tx ty : ℤ) (h : g.inBounds tx ty = true) :
    (g.idx tx ty).toNat < g.size := by
  have h2 := h
  rw [NavGrid.inBounds_iff] at h2
  obtain ⟨ha, hb, hc, hd⟩ := h2
  have hw : 0 ≤ g.w := by omega
  have hh : 0 ≤ g.h := by omega
  rw [NavGrid.size_eq g hw hh, NavGrid.toNat_idx g tx ty h]
  have htx : tx.toNat < g.w.toNat := by omega
  have hty : ty.toNat < g.h.toNat := by omega
  calc ty.toNat * g.w.toNat + tx.toNat < ty.toNat * g.w.toNat + g.w.toNat := by omega
    _ = (ty.toNat + 1) * g.w.toNat := by ring
    _ ≤ g.h.toNat * g.w.toNat := Nat.mul_le_mul_right _ (by omega)
    _ = g.w.toNat * g.h.toNat := Nat.mul_comm _ _

theorem NavGrid.cellX_idx (g : NavGrid) (tx ty : ℤ) (h : g.inBounds tx ty = true) :
    g.cellX (g.idx tx ty).toNat = tx := by
  have h2 := h
  rw [NavGrid.inBounds_iff] at h2
  obtain ⟨ha, hb, hc, hd⟩ := h2
  unfold NavGrid.cellX
  rw [NavGrid.toNat_idx g tx ty h, Nat.mul_comm ty.toNat g.w.toNat, Nat.mul_add_mod,
    Nat.mod_eq_of_lt (by omega)]
  omega

theorem NavGrid.cellY_idx (g : NavGrid) (tx ty : ℤ) (h : g.inBounds tx ty = true) :
    g.cellY (g.idx tx ty).toNat = ty := by
  have h2 := h
  rw [NavGrid.inBounds_iff] at h2
  obtain ⟨ha, hb, hc, hd⟩ := h2
  unfold NavGrid.cellY
  have hw0 : 0 < g.w.toNat := by omega
  rw [NavGrid.toNat_idx g tx ty h, Nat.mul_comm, Nat.mul_add_div hw0,
    Nat.div_eq_of_lt (by omega), Nat.add_zero]
  omega

theorem NavGrid.cellX_nonneg (g : NavGrid) (i : ℕ) : 0 ≤ g.cellX i := Int.ofNat_nonneg _

theorem NavGrid.cellY_nonneg (g : NavGrid) (i : ℕ) : 0 ≤ g.cellY i := Int.ofNat_nonneg _

theorem NavGrid.cellX_lt (g : NavGrid) (i : ℕ) (hw : 0 < g.w) : g.cellX i < g.w := by
  unfold NavGrid.cellX
  have h0 : 0 < g.w.toNat := by omega
  have := Nat.mod_lt i h0
  omega

theorem NavGrid.cellY_lt (g : NavGrid) (i : ℕ) (hw : 0 < g.w) (hh : 0 < g.h)
    (hi : i < g.size) : g.cellY i < g.h := by
  unfold NavGrid.cellY
  rw [NavGrid.size_eq g (by omega) (by omega)] at hi
  have h0 : 0 < g.w.toNat := by omega
  have : i / g.w.toNat < g.h.toNat := Nat.div_lt_of_lt_mul (by omega)
  omega

theorem NavGrid.idx_cell (g : NavGrid) (i : ℕ) (hw : 0 < g.w) (_hh : 0 < g.h)
    (_hi : i < g.size) : (g.idx (g.cellX i) (g.cellY i)).toNat = i := by
  unfold NavGrid.idx NavGrid.cellX NavGrid.cellY
  have h0 : 0 < g.w.toNat := by omega
  have hmod := Nat.div_add_mod' i g.w.toNat
  have hweq : ((g.w.toNat : ℤ)) = g.w := Int.toNat_of_nonneg (by omega)
  have hcast : ((i / g.w.toNat : ℕ) : ℤ) * g.w + ((i % g.w.toNat : ℕ) : ℤ)
      = ((i / g.w.toNat * g.w.toNat + i % g.w.toNat : ℕ) : ℤ) := by
    push_cast
    rw [hweq]
  rw [hcast]
  omega

theorem NavGrid.inBounds_cell (g : NavGrid) (i : ℕ) (hw : 0 < g.w) (hh : 0 < g.h)
    (hi : i < g.size) : g.inBounds (g.cellX i) (g.cellY i) = true := by
  rw [NavGrid.inBounds_iff]
  exact ⟨g.cellX_nonneg i, g.cellY_nonneg i, g.cellX_lt i hw, g.cellY_lt i hw hh hi⟩

theorem NavGrid.isWalkable_pos (g : NavGrid) (tx ty : ℤ) (h : g.isWalkable tx ty = true) :
    0 < g.w ∧ 0 < g.h := by
  have hb := g.isWalkable_inBounds tx ty h
  rw [NavGrid.inBounds_iff] at hb
  omega

/-! ## Constructor shape lemmas: the build passes only touch `walkable` -/

theorem foldl_shape {α : Type} (f : NavGrid → α → NavGrid) (l : List α) (g : NavGrid)
    (hf : ∀ g' a, ∃ wk, f g' a = { g' with walkable := wk }) :
    ∃ wk, l.foldl f g = { g with walkable := wk } := by
  induction l generalizing g with
  | nil => exact ⟨g.walkable, rfl⟩
  | cons a t ih =>
    simp only [List.foldl_cons]
    obtain ⟨wk1, h1⟩ := hf g a
    obtain ⟨wk2, h2⟩ := ih (f g a)
    exact ⟨wk2, by rw [h2, h1]⟩

theorem stampBlockedRect_shape (g : NavGrid) (x y rw rh : ℤ) :
    ∃ wk, stampBlockedRect g x y rw rh = { g with walkable := wk } := by
  unfold stampBlockedRect
  dsimp only
  split
  · exact ⟨g.walkable, rfl⟩
  · exact ⟨_, rfl⟩

theorem buildWalkable_shape (g : NavGrid) (ls : List CollisionLayer) :
    ∃ wk, buildWalkableFromCollisionLayers g ls = { g with walkable := wk } := by
  unfold buildWalkableFromCollisionLayers
  split
  · exact ⟨g.walkable, rfl⟩
  · have hlayer : ∀ (g' : NavGrid) (layer : CollisionLayer), ∃ wk,
        (match layer.data with
        | none => g'
        | some rows => rows.foldl (fun g row =>
            match row with
            | none => g
            | some tiles => tiles.foldl (fun g tile =>
                match tile with
                | none => g
                | some t =>
                  if !t.collides then g
                  else match t.bounds with
                    | none => g
                    | some rect =>
                      let er := g.tileErodePx
                      if 0 < er then
                        let ex := rect.x + er
                        let ey := rect.y + er
                        let ew := rect.width - er * 2
                        let eh := rect.height - er * 2
                        if 0 < ew ∧ 0 < eh then stampBlockedRect g ex ey ew eh
                        else stampBlockedRect g rect.x rect.y rect.width rect.height
                      else stampBlockedRect g rect.x rect.y rect.width rect.height) g) g') =
          { g' with walkable := wk } := by
      intro g' layer
      cases layer.data with
      | none => exact ⟨g'.walkable, rfl⟩
      | some rows =>
        refine foldl_shape _ rows g' ?_
        intro g2 row
        cases row with
        | none => exact ⟨g2.walkable, rfl⟩
        | some tiles =>
          refine foldl_shape _ tiles g2 ?_
          intro g3 tile
          cases tile with
          | none => exact ⟨g3.walkable, rfl⟩
          | some t =>
            dsimp only
            by_cases hc : (!t.collides) = true
            · rw [if_pos hc]
              exact ⟨g3.walkable, rfl⟩
            · rw [if_neg hc]
              cases t.bounds with
              | none => exact ⟨g3.walkable, rfl⟩
              | some rect =>
                simp only []
                split
                · split
                  · exact stampBlockedRect_shape _ _ _ _ _
                  · exact stampBlockedRect_shape _ _ _ _ _
                · exact stampBlockedRect_shape _ _ _ _ _
    obtain ⟨wk, hw⟩ := foldl_shape _ ls { g with walkable := List.replicate g.size true } hlayer
    exact ⟨wk, by rw [hw]⟩

theorem applyObstacleRects_shape (g : NavGrid) (rects : List ObstacleRect) (ml : Bool) :
    ∃ wk, applyObstacleRects g rects ml = { g with walkable := wk } := by
  unfold applyObstacleRects
  split
  · exact ⟨g.walkable, rfl⟩
  · refine foldl_shape _ rects g ?_
    intro g' rect
    rcases rect with ⟨rx, ry, rw, rh⟩
    cases rx with
    | none => exact ⟨g'.walkable, rfl⟩
    | some x0 =>
      cases ry with
      | none => exact ⟨g'.walkable, rfl⟩
      | some y0 =>
        cases rw with
        | none => exact ⟨g'.walkable, rfl⟩
        | some rw0 =>
          cases rh with
          | none => exact ⟨g'.walkable, rfl⟩
          | some rh0 =>
            simp only []
            split
            · exact ⟨g'.walkable, rfl⟩
            · exact stampBlockedRect_shape _ _ _ _ _

theorem blockOutsideMapPixels_shape (g : NavGrid) :
    ∃ wk, blockOutsideMapPixels g = { g with walkable := wk } := by
  unfold blockOutsideMapPixels
  dsimp only
  split
  · exact ⟨g.walkable, rfl⟩
  · exact ⟨_, rfl⟩

theorem mkNavGrid_shape (o : NavGridOptions) :
    ∃ wk, mkNavGrid o = { navGridInit o with walkable := wk } := by
  unfold mkNavGrid
  obtain ⟨w1, h1⟩ := buildWalkable_shape (navGridInit o) o.collisionLayers
  obtain ⟨w2, h2⟩ := applyObstacleRects_shape (buildWalkableFromCollisionLayers (navGridInit o) o.collisionLayers) o.obstacleRects o.obstacleRectsAreMapLocal
  obtain ⟨w3, h3⟩ := blockOutsideMapPixels_shape (applyObstacleRects (buildWalkableFromCollisionLayers (navGridInit o) o.collisionLayers) o.obstacleRects o.obstacleRectsAreMapLocal)
  refine ⟨w3, ?_⟩
  rw [h3, h2, h1]

theorem mkNavGrid_w (o : NavGridOptions) : (mkNavGrid o).w = navW o := by
  obtain ⟨wk, h⟩ := mkNavGrid_shape o
  rw [h]
  rfl

theorem mkNavGrid_h (o : NavGridOptions) : (mkNavGrid o).h = navH o := by
  obtain ⟨wk, h⟩ := mkNavGrid_shape o
  rw [h]
  rfl

theorem mkNavGrid_cellSize (o : NavGridOptions) : (mkNavGrid o).cellSize = navCellSize o := by
  obtain ⟨wk, h⟩ := mkNavGrid_shape o
  rw [h]
  rfl

theorem mkNavGrid_pixelW (o : NavGridOptions) : (mkNavGrid o).pixelW = navPixelW o := by
  obtain ⟨wk, h⟩ := mkNavGrid_shape o
  rw [h]
  rfl

theorem mkNavGrid_pixelH (o : NavGridOptions) : (mkNavGrid o).pixelH = navPixelH o := by
  obtain ⟨wk, h⟩ := mkNavGrid_shape o
  rw [h]
  rfl

/-! ## Claim C9: invalid/missing tile source -/

theorem NavGrid.inBounds_of_w_zero (g : NavGrid) (tx ty : ℤ) (hw : g.w = 0) :
    g.inBounds tx ty = false := by
  cases hb : g.inBounds tx ty
  · rfl
  · rw [NavGrid.inBounds_iff] at hb
    omega

theorem NavGrid.isWalkable_of_w_zero (g : NavGrid) (tx ty : ℤ) (hw : g.w = 0) :
    g.isWalkable tx ty = false := by
  unfold NavGrid.isWalkable
  rw [g.inBounds_of_w_zero tx ty hw, Bool.false_and]

/-- C9: constructing a NavGrid from a null or extent-less tile source yields a
zero-sized grid on which `isWalkable` is false and `findNearestWalkableTile`
is "not found" for every input. -/
theorem navGrid_invalid_source_safe (o : NavGridOptions)
    (h : o.tilemap = none ∨ (navPixelW o = 0 ∧ navPixelH o = 0)) :
    (mkNavGrid o).w = 0 ∧ (mkNavGrid o).h = 0 ∧
    (∀ tx ty : ℤ, (mkNavGrid o).isWalkable tx ty = false) ∧
    (∀ tx ty maxR : ℤ, (mkNavGrid o).findNearestWalkableTile tx ty maxR = none) := by
  have hpx : navPixelW o = 0 ∧ navPixelH o = 0 := by
    rcases h with h | h
    · constructor
      · unfold navPixelW
        rw [h]
      · unfold navPixelH
        rw [h]
    · exact h
  have hw : (mkNavGrid o).w = 0 := by
    rw [mkNavGrid_w]
    unfold navW jsCeilDiv
    rw [hpx.1]
    simp [Int.zero_fdiv]
  have hh : (mkNavGrid o).h = 0 := by
    rw [mkNavGrid_h]
    unfold navH jsCeilDiv
    rw [hpx.2]
    simp [Int.zero_fdiv]
  refine ⟨hw, hh, ?_, ?_⟩
  · intro tx ty
    exact (mkNavGrid o).isWalkable_of_w_zero tx ty hw
  · intro tx ty maxR
    unfold NavGrid.findNearestWalkableTile
    rw [(mkNavGrid o).inBounds_of_w_zero tx ty hw]
    rfl

/-- Witness for C9 at the empty option object (a `null` tilemap). -/
theorem navGrid_invalid_source_safe_witness :
    ({} : NavGridOptions).tilemap = none ∧
    (mkNavGrid {}).w = 0 ∧ (mkNavGrid {}).h = 0 ∧
    (mkNavGrid {}).isWalkable 0 0 = false ∧
    (mkNavGrid {}).findNearestWalkableTile 3 5 6 = none := by
  have h := navGrid_invalid_source_safe {} (Or.inl rfl)
  exact ⟨rfl, h.1, h.2.1, h.2.2.1 0 0, h.2.2.2 3 5 6⟩

/-! ## Claim C1: cells outside the map pixel extents -/

theorem blockOutside_walkable_getD (g : NavGrid) (i : ℕ) (hi : i < g.size)
    (hguard : ¬(g.w = 0 ∨ g.h = 0 ∨ g.pixelW = 0 ∨ g.pixelH = 0))
    (hc : (2 * g.cellX i + 1) * g.cellSize ≥ 2 * g.pixelW ∨
      (2 * g.cellY i + 1) * g.cellSize ≥ 2 * g.pixelH) :
    (blockOutsideMapPixels g).walkable.getD i false = false := by
  unfold blockOutsideMapPixels
  rw [if_neg hguard]
  show ((List.range g.size).map _).getD i false = false
  rw [getD_map_range _ _ _ _ hi]
  dsimp only
  rw [if_pos hc]

theorem blockOutside_isWalkable_false (g : NavGrid) (tx ty : ℤ)
    (hpw : g.pixelW ≠ 0) (hph : g.pixelH ≠ 0)
    (hc : (2 * tx + 1) * g.cellSize ≥ 2 * g.pixelW ∨ (2 * ty + 1) * g.cellSize ≥ 2 * g.pixelH) :
    (blockOutsideMapPixels g).isWalkable tx ty = false := by
  obtain ⟨wk, hs⟩ := blockOutsideMapPixels_shape g
  rw [hs]
  show (g.inBounds tx ty && wk.getD (g.idx tx ty).toNat false) = false
  cases hb : g.inBounds tx ty with
  | false => rw [Bool.false_and]
  | true =>
    rw [Bool.true_and]
    have hpos : 0 < g.w ∧ 0 < g.h := by
      rw [NavGrid.inBounds_iff] at hb
      omega
    have hwalk := blockOutside_walkable_getD g (g.idx tx ty).toNat (g.toNat_idx_lt tx ty hb)
      (by push_neg; exact ⟨by omega, by omega, hpw, hph⟩)
      (by rw [g.cellX_idx tx ty hb, g.cellY_idx tx ty hb]; exact hc)
    rw [hs] at hwalk
    exact hwalk

theorem navCellSize_pos (o : NavGridOptions) : 0 < navCellSize o :=
  lt_of_lt_of_le zero_lt_one (le_max_left 1 _)

/-- C1 (amended): after construction, every cell whose centre point lies at or
beyond the map's pixel extents is blocked, regardless of the collision data
the grid was built from. -/
theorem navGrid_center_outside_blocked (o : NavGridOptions) (tx ty : ℤ)
    (h : (2 * tx + 1) * (mkNavGrid o).cellSize ≥ 2 * (mkNavGrid o).pixelW ∨
         (2 * ty + 1) * (mkNavGrid o).cellSize ≥ 2 * (mkNavGrid o).pixelH) :
    (mkNavGrid o).isWalkable tx ty = false := by
  by_cases hb : (mkNavGrid o).inBounds tx ty = true
  · have hw0 : 0 < navW o := by
      rw [NavGrid.inBounds_iff, mkNavGrid_w, mkNavGrid_h] at hb
      omega
    have hh0 : 0 < navH o := by
      rw [NavGrid.inBounds_iff, mkNavGrid_w, mkNavGrid_h] at hb
      omega
    have hcs := navCellSize_pos o
    have hpw : 0 < navPixelW o := by
      by_contra hle
      push_neg at hle
      have : 0 ≤ Int.fdiv (-navPixelW o) (navCellSize o) :=
        Int.fdiv_nonneg (by omega) (by omega)
      unfold navW jsCeilDiv at hw0
      omega
    have hph : 0 < navPixelH o := by
      by_contra hle
      push_neg at hle
      have : 0 ≤ Int.fdiv (-navPixelH o) (navCellSize o) :=
        Int.fdiv_nonneg (by omega) (by omega)
      unfold navH jsCeilDiv at hh0
      omega
    obtain ⟨w1, h1⟩ := buildWalkable_shape (navGridInit o) o.collisionLayers
    obtain ⟨w2, h2⟩ := applyObstacleRects_shape
      (buildWalkableFromCollisionLayers (navGridInit o) o.collisionLayers)
      o.obstacleRects o.obstacleRectsAreMapLocal
    have hg2 : applyObstacleRects
        (buildWalkableFromCollisionLayers (navGridInit o) o.collisionLayers)
        o.obstacleRects o.obstacleRectsAreMapLocal = { navGridInit o with walkable := w2 } := by
      rw [h2, h1]
    show (blockOutsideMapPixels (applyObstacleRects
      (buildWalkableFromCollisionLayers (navGridInit o) o.collisionLayers)
      o.obstacleRects o.obstacleRectsAreMapLocal)).isWalkable tx ty = false
    rw [hg2]
    refine blockOutside_isWalkable_false _ tx ty (by show navPixelW o ≠ 0; omega)
      (by show navPixelH o ≠ 0; omega) ?_
    show (2 * tx + 1) * navCellSize o ≥ 2 * navPixelW o ∨
      (2 * ty + 1) * navCellSize o ≥ 2 * navPixelH o
    rw [mkNavGrid_cellSize, mkNavGrid_pixelW, mkNavGrid_pixelH] at h
    exact h
  · have hb0 : (mkNavGrid o).inBounds tx ty = false := by
      cases h0 : (mkNavGrid o).inBounds tx ty
      · rfl
      · exact absurd h0 hb
    unfold NavGrid.isWalkable
    rw [hb0, Bool.false_and]

/-- C1 counterexample: with a 13×8-pixel map and the default 8px cells,
cell (1,0) lies partially outside the pixel extents (its square spans
x ∈ [8,16) but the map is only 13px wide), yet `isWalkable(1,0)` is true:
only cells whose centre is outside the extents are blocked. -/
theorem navGrid_partial_outside_walkable_counterexample :
    (mkNavGrid c1Opts).cellSize = 8 ∧ (mkNavGrid c1Opts).pixelW = 13 ∧
    (mkNavGrid c1Opts).inBounds 1 0 = true ∧
    ((1 : ℤ) + 1) * (mkNavGrid c1Opts).cellSize > (mkNavGrid c1Opts).pixelW ∧
    (mkNavGrid c1Opts).isWalkable 1 0 = true := by
  refine ⟨?_, ?_, ?_, ?_, ?_⟩ <;> decide

/-- Witness for the amended C1: on a 12×8-pixel map, cell (1,0) is in bounds
with its centre exactly on the right extent, and is blocked. -/
theorem navGrid_center_outside_blocked_witness :
    (2 * (1 : ℤ) + 1) * (mkNavGrid c1wOpts).cellSize ≥ 2 * (mkNavGrid c1wOpts).pixelW ∧
    (mkNavGrid c1wOpts).inBounds 1 0 = true ∧
    (mkNavGrid c1wOpts).isWalkable 1 0 = false :=
  ⟨by decide, by decide,
    navGrid_center_outside_blocked c1wOpts 1 0 (Or.inl (by decide))⟩

/-! ## Claim C2: nearest-walkable scan order -/

theorem findSome?_guard_eq_find? {α : Type} (p : α → Bool) (l : List α) :
    (l.findSome? fun a => if p a then some a else none) = l.find? p := by
  induction l with
  | nil => rfl
  | cons a t ih =>
    rw [List.findSome?_cons, List.find?_cons]
    cases h : p a
    · simp only [h, Bool.false_eq_true, if_false]
      exact ih
    · simp only [h, if_true]

theorem findSome?_find?_flatMap {α β : Type} (l : List α) (f : α → List β) (p : β → Bool) :
    (l.findSome? fun a => (f a).find? p) = (l.flatMap f).find? p := by
  induction l with
  | nil => rfl
  | cons a t ih =>
    rw [List.flatMap_cons, List.find?_append, List.findSome?_cons]
    cases h : (f a).find? p
    · simp only [h, Option.none_or]
      exact ih
    · simp only [h, Option.or]

theorem isWalkable_and_inBounds (g : NavGrid) (tx ty : ℤ) :
    (g.inBounds tx ty && g.isWalkable tx ty) = g.isWalkable tx ty := by
  unfold NavGrid.isWalkable
  cases h : g.inBounds tx ty <;> simp [h]

theorem ringScan_eq_find? (g : NavGrid) (tx ty : ℤ) (R : ℕ) :
    ringScan g tx ty R = ((List.range R).flatMap fun k =>
      (ringOffsets (k + 1)).map fun c => (tx + c.1, ty + c.2)).find?
        fun c => g.isWalkable c.1 c.2 := by
  unfold ringScan
  rw [← findSome?_find?_flatMap]
  congr 1
  funext k
  rw [← findSome?_guard_eq_find?, List.findSome?_map]
  congr 1
  funext c
  simp only [Function.comp]
  rw [isWalkable_and_inBounds]

/-- C2 (amended): for an in-bounds start cell, `findNearestWalkableTile`
returns the first walkable cell of the probe order `searchCells`: the cell
itself, then rings `1..maxR`, each ring scanned as "for each `dx` from `-r` to
`r`, its top cell then its bottom cell; then for each `dy` from `-r+1` to
`r-1`, its left cell then its right cell"; `none` when no probed cell is
walkable.  (For an out-of-bounds start the code returns `none` without
scanning.) -/
theorem findNearestWalkable_first_in_scan_order (g : NavGrid) (tx ty maxR : ℤ)
    (hb : g.inBounds tx ty = true) :
    g.findNearestWalkableTile tx ty maxR =
      (searchCells tx ty (max 0 maxR).toNat).find? fun c => g.isWalkable c.1 c.2 := by
  unfold NavGrid.findNearestWalkableTile searchCells
  rw [hb, List.find?_cons]
  cases hw : g.isWalkable tx ty
  · simp only [hw, Bool.not_true, Bool.false_eq_true, if_false]
    exact ringScan_eq_find? g tx ty (max 0 maxR).toNat
  · simp only [hw, Bool.not_true, if_true, if_false, Bool.false_eq_true]

/-- C2 counterexample: on a 3×3 grid whose only walkable cells are (1,0) and
(0,2), searching from the blocked centre (1,1) returns (0,2) — the ring-1
bottom cell at `dx = -1`, probed before the top cell at `dx = 0` because the
code interleaves top/bottom per column — while the spec's order (whole top
edge first) would return (1,0). -/
theorem findNearestWalkable_scan_order_counterexample :
    c2Grid.findNearestWalkableTile 1 1 6 = some (0, 2) ∧
    findNearestWalkableSpecOrder c2Grid 1 1 6 = some (1, 0) ∧
    c2Grid.isWalkable 1 0 = true ∧ c2Grid.isWalkable 0 2 = true ∧
    ((0, 2) : ℤ × ℤ) ≠ (1, 0) := by
  refine ⟨?_, ?_, ?_, ?_, ?_⟩ <;> decide

/-- Witness for the amended C2 on the same concrete grid. -/
theorem findNearestWalkable_first_in_scan_order_witness :
    c2Grid.inBounds 1 1 = true ∧
    c2Grid.findNearestWalkableTile 1 1 6 =
      ((searchCells 1 1 (max 0 (6 : ℤ)).toNat).find? fun c => c2Grid.isWalkable c.1 c.2) :=
  ⟨by decide, findNearestWalkable_first_in_scan_order c2Grid 1 1 6 (by decide)⟩

/-! ## BFS basic lemmas: length and visited-value preservation -/

theorem getD_congr_default (l : List ℤ) (i : ℕ) (d d' : ℤ) (h : i < l.length) :
    l.getD i d = l.getD i d' := by
  rw [List.getD_eq_getElem l d h, List.getD_eq_getElem l d' h]

theorem bfsVisit_length (g : NavGrid) (noCC : Bool) (cx cy : ℤ) (curD : ℤ)
    (st : List ℤ × List ℕ) (nx ny : ℤ) (isDiag : Bool) :
    (bfsVisit g noCC cx cy curD st nx ny isDiag).1.length = st.1.length := by
  unfold bfsVisit
  split
  · rfl
  split
  · rfl
  split
  · rfl
  dsimp only
  split
  · rfl
  exact List.length_set _ _ _

theorem bfsVisit_preserve (g : NavGrid) (noCC : Bool) (cx cy : ℤ) (curD : ℤ)
    (st : List ℤ × List ℕ) (nx ny : ℤ) (isDiag : Bool) (j : ℕ)
    (hj : st.1.getD j (-1) ≠ -1) :
    (bfsVisit g noCC cx cy curD st nx ny isDiag).1.getD j (-1) = st.1.getD j (-1) := by
  unfold bfsVisit
  split
  · rfl
  split
  · rfl
  split
  · rfl
  dsimp only
  split
  · rfl
  rename_i hcond
  have h0 : st.1.getD (g.idx nx ny).toNat 0 = -1 := by
    simpa using hcond
  have hlt : (g.idx nx ny).toNat < st.1.length := by
    by_contra hge
    push_neg at hge
    rw [getD_out_of_range _ _ _ hge] at h0
    exact absurd h0 (by decide)
  have hne2 : j ≠ (g.idx nx ny).toNat := by
    intro he
    apply hj
    rw [he, getD_congr_default _ _ _ 0 hlt]
    exact h0
  exact getD_set_ne _ _ _ _ _ (fun he => hne2 he.symm)

theorem visitFold_length (g : NavGrid) (noCC : Bool) (cx cy : ℤ) (curD : ℤ)
    (L : List (ℤ × ℤ × Bool)) (st : List ℤ × List ℕ) :
    (L.foldl (fun st c => bfsVisit g noCC cx cy curD st c.1 c.2.1 c.2.2) st).1.length =
      st.1.length := by
  induction L generalizing st with
  | nil => rfl
  | cons c t ih =>
    rw [List.foldl_cons, ih]
    exact bfsVisit_length g noCC cx cy curD st c.1 c.2.1 c.2.2

theorem visitFold_preserve (g : NavGrid) (noCC : Bool) (cx cy : ℤ) (curD : ℤ)
    (L : List (ℤ × ℤ × Bool)) (st : List ℤ × List ℕ) (j : ℕ)
    (hj : st.1.getD j (-1) ≠ -1) :
    (L.foldl (fun st c => bfsVisit g noCC cx cy curD st c.1 c.2.1 c.2.2) st).1.getD j (-1) =
      st.1.getD j (-1) := by
  induction L generalizing st with
  | nil => rfl
  | cons c t ih =>
    rw [List.foldl_cons]
    have h1 := bfsVisit_preserve g noCC cx cy curD st c.1 c.2.1 c.2.2 j hj
    rw [ih _ (by rw [h1]; exact hj), h1]

theorem bfsStepNeighbors_length (g : NavGrid) (noCC allowDiag : Bool) (dist : List ℤ)
    (cur : ℕ) : (bfsStepNeighbors g noCC allowDiag dist cur).1.length = dist.length := by
  unfold bfsStepNeighbors
  exact visitFold_length g noCC _ _ _ _ _

theorem bfsStepNeighbors_preserve (g : NavGrid) (noCC allowDiag : Bool) (dist : List ℤ)
    (cur : ℕ) (j : ℕ) (hj : dist.getD j (-1) ≠ -1) :
    (bfsStepNeighbors g noCC allowDiag dist cur).1.getD j (-1) = dist.getD j (-1) := by
  unfold bfsStepNeighbors
  exact visitFold_preserve g noCC _ _ _ _ _ j hj

theorem bfsLoop_length (g : NavGrid) (noCC allowDiag : Bool) (fuel : ℕ) (dist : List ℤ)
    (pending emitted : List ℕ) :
    (bfsLoop g noCC allowDiag fuel dist pending emitted).1.length = dist.length := by
  induction fuel generalizing dist pending emitted with
  | zero => rfl
  | succ n ih =>
    cases pending with
    | nil => rfl
    | cons cur rest =>
      show (bfsLoop g noCC allowDiag n _ _ _).1.length = _
      rw [ih]
      exact bfsStepNeighbors_length g noCC allowDiag dist cur

theorem bfsLoop_preserve (g : NavGrid) (noCC allowDiag : Bool) (fuel : ℕ) (dist : List ℤ)
    (pending emitted : List ℕ) (j : ℕ) (hj : dist.getD j (-1) ≠ -1) :
    (bfsLoop g noCC allowDiag fuel dist pending emitted).1.getD j (-1) = dist.getD j (-1) := by
  induction fuel generalizing dist pending emitted with
  | zero => rfl
  | succ n ih =>
    cases pending with
    | nil => rfl
    | cons cur rest =>
      show (bfsLoop g noCC allowDiag n _ _ _).1.getD j (-1) = _
      have h1 := bfsStepNeighbors_preserve g noCC allowDiag dist cur j hj
      rw [ih _ _ _ (by rw [h1]; exact hj), h1]

theorem lt_size_of_walkI (g : NavGrid) (i : ℕ) (h : walkI g i = true) : i < g.size := by
  have hb := g.isWalkable_inBounds _ _ h
  rw [NavGrid.inBounds_iff] at hb
  obtain ⟨h1, h2, h3, h4⟩ := hb
  have hw : 0 < g.w := lt_of_le_of_lt (g.cellX_nonneg i) h3
  have hh : 0 < g.h := lt_of_le_of_lt (g.cellY_nonneg i) h4
  rw [NavGrid.size_eq g (by omega) (by omega)]
  have hdiv : i / g.w.toNat < g.h.toNat := by
    unfold NavGrid.cellY at h4
    omega
  have := (Nat.div_lt_iff_lt_mul (by omega : 0 < g.w.toNat)).mp hdiv
  rw [Nat.mul_comm g.w.toNat g.h.toNat]
  omega

/-- On the path that actually runs the BFS, the rebuilt distance buffer has
grid size and still carries 0 at the seed. -/
theorem rebuild_seed_zero (g : NavGrid) (ff : FlowField) (seed : ℕ)
    (hw : ¬(g.w = 0 ∨ g.h = 0))
    (hseed : g.isWalkable (g.cellX seed) (g.cellY seed) = true) :
    (ff.rebuildFromTargetIdx g seed).dist.length = g.size ∧
    (ff.rebuildFromTargetIdx g seed).dist.getD seed (-1) = 0 := by
  have hlt : seed < g.size := lt_size_of_walkI g seed hseed
  unfold FlowField.rebuildFromTargetIdx
  rw [if_neg hw]
  dsimp only
  rw [if_neg (by simp [hseed])]
  dsimp only
  constructor
  · rw [bfsLoop_length, List.length_set, List.length_replicate]
  · have h0 : ((List.replicate g.size (-1 : ℤ)).set seed 0).getD seed (-1) = 0 :=
      getD_set_self _ _ _ _ (by rw [List.length_replicate]; exact hlt)
    rw [bfsLoop_preserve _ _ _ _ _ _ _ _ (by rw [h0]; decide), h0]

/-! ## Seed resolution lemmas -/

theorem footprintScan_walkable (g : NavGrid) (pc : Bool) (tx ty : ℤ)
    (L : List (ℤ × ℤ)) (best : Option ((ℤ × ℤ) × ℤ))
    (hbest : ∀ b, best = some b → g.isWalkable b.1.1 b.1.2 = true) :
    ∀ r, footprintScan g pc tx ty L best = some r → g.isWalkable r.1 r.2 = true := by
  induction L generalizing best with
  | nil =>
    intro r hr
    unfold footprintScan at hr
    cases hb : best with
    | none => rw [hb] at hr; simp at hr
    | some b =>
      rw [hb] at hr
      have hr2 : some b.1 = some r := hr
      injection hr2 with hr2
      rw [← hr2]
      exact hbest b hb
  | cons c rest ih =>
    intro r hr
    unfold footprintScan at hr
    by_cases h1 : (!g.inBounds (tx + c.1) (ty + c.2)) = true
    · rw [if_pos h1] at hr
      exact ih best hbest r hr
    rw [if_neg h1] at hr
    by_cases h2 : (!g.isWalkable (tx + c.1) (ty + c.2)) = true
    · rw [if_pos h2] at hr
      exact ih best hbest r hr
    rw [if_neg h2] at hr
    have hwalk : g.isWalkable (tx + c.1) (ty + c.2) = true := by
      revert h2
      cases g.isWalkable (tx + c.1) (ty + c.2) <;> simp
    by_cases h3 : (!pc) = true
    · rw [if_pos h3] at hr
      injection hr with hr
      rw [← hr]
      exact hwalk
    rw [if_neg h3] at hr
    have hnew : ∀ b2 : (ℤ × ℤ) × ℤ,
        (some ((tx + c.1, ty + c.2), c.1 * c.1 + c.2 * c.2) :
          Option ((ℤ × ℤ) × ℤ)) = some b2 →
        g.isWalkable b2.1.1 b2.1.2 = true := by
      intro b2 hb2
      injection hb2 with hb2
      rw [← hb2]
      exact hwalk
    cases hb : best with
    | none =>
      rw [hb] at hr
      exact ih _ hnew r hr
    | some b =>
      rw [hb] at hr
      dsimp only at hr
      by_cases h4 : c.1 * c.1 + c.2 * c.2 < b.2
      · rw [if_pos h4] at hr
        exact ih _ hnew r hr
      · rw [if_neg h4] at hr
        refine ih (some b) (fun b2 hb2 => ?_) r hr
        injection hb2 with hb2
        rw [← hb2]
        exact hbest b hb

theorem findWalkableInHeroFootprint_walkable (g : NavGrid) (ff : FlowField) (tx ty : ℤ)
    (fp : ℤ × ℤ) (h : ff.findWalkableInHeroFootprint g tx ty = some fp) :
    g.isWalkable fp.1 fp.2 = true := by
  unfold FlowField.findWalkableInHeroFootprint at h
  dsimp only at h
  split at h
  · exact absurd h (by simp)
  · exact footprintScan_walkable g _ tx ty _ none (by intro b hb; cases hb) fp h

theorem ringScan_walkable (g : NavGrid) (tx ty : ℤ) (R : ℕ) (fp : ℤ × ℤ)
    (h : ringScan g tx ty R = some fp) : g.isWalkable fp.1 fp.2 = true := by
  rw [ringScan_eq_find?] at h
  have := List.find?_some h
  simpa using this

theorem findNearestWalkableFF_walkable (g : NavGrid) (tx ty maxR : ℤ) (fp : ℤ × ℤ)
    (h : findNearestWalkableFF g tx ty maxR = some fp) : g.isWalkable fp.1 fp.2 = true := by
  unfold findNearestWalkableFF at h
  split at h
  · rename_i hw
    injection h with h
    rw [← h]
    exact hw
  · exact ringScan_walkable g tx ty _ fp h

/-- A resolved seed is a walkable in-range cell (and the grid is non-empty). -/
theorem resolve_some_walkable (g : NavGrid) (ff : FlowField) (tx ty : ℤ) (i : ℕ)
    (h : ff.resolveBuildTargetIdx g tx ty = some i) :
    walkI g i = true ∧ i < g.size ∧ ¬(g.w = 0 ∨ g.h = 0) := by
  unfold FlowField.resolveBuildTargetIdx at h
  split at h
  · exact absurd h (by simp)
  · rename_i hguard
    refine ⟨?_, ?_, hguard⟩ <;>
    · split at h
      · rename_i fp hfp
        have hw := findWalkableInHeroFootprint_walkable g ff tx ty fp hfp
        have hb := g.isWalkable_inBounds _ _ hw
        injection h with h
        rw [← h]
        first
        | (show walkI g _ = true
           unfold walkI
           rw [g.cellX_idx _ _ hb, g.cellY_idx _ _ hb]
           exact hw)
        | exact g.toNat_idx_lt _ _ hb
      · split at h
        · rename_i fd hfd
          have hw := findNearestWalkableFF_walkable g tx ty _ fd hfd
          have hb := g.isWalkable_inBounds _ _ hw
          injection h with h
          rw [← h]
          first
          | (show walkI g _ = true
             unfold walkI
             rw [g.cellX_idx _ _ hb, g.cellY_idx _ _ hb]
             exact hw)
          | exact g.toNat_idx_lt _ _ hb
        · exact absurd h (by simp)

/-! ## updateTargetTile control-flow lemmas -/

theorem resolve_congr (g : NavGrid) (ff ff' : FlowField) (tx ty : ℤ)
    (h1 : ff'.heroFootprintPx = ff.heroFootprintPx)
    (h2 : ff'.heroFootprintPreferCenter = ff.heroFootprintPreferCenter)
    (h3 : ff'.nearestWalkableMaxR = ff.nearestWalkableMaxR) :
    ff'.resolveBuildTargetIdx g tx ty = ff.resolveBuildTargetIdx g tx ty := by
  unfold FlowField.resolveBuildTargetIdx FlowField.findWalkableInHeroFootprint
  rw [h1, h2, h3]

theorem rebuild_shape (g : NavGrid) (ff : FlowField) (t : ℕ) :
    ∃ d r, ff.rebuildFromTargetIdx g t = { ff with dist := d, dir := r } := by
  unfold FlowField.rebuildFromTargetIdx
  split
  · exact ⟨ff.dist, ff.dir, rfl⟩
  · dsimp only
    split
    · exact ⟨_, _, rfl⟩
    · exact ⟨_, _, rfl⟩

theorem afterThrottle_fields (ff : FlowField) (nowMs : ℤ) (force : Bool) :
    (ff.afterThrottle nowMs force).dist = ff.dist ∧
    (ff.afterThrottle nowMs force).dir = ff.dir ∧
    (ff.afterThrottle nowMs force).lastRequestedTargetIdx = ff.lastRequestedTargetIdx ∧
    (ff.afterThrottle nowMs force).lastBuiltTargetIdx = ff.lastBuiltTargetIdx ∧
    (ff.afterThrottle nowMs force).minRebuildGapMs = ff.minRebuildGapMs ∧
    (ff.afterThrottle nowMs force).useDiagonals = ff.useDiagonals ∧
    (ff.afterThrottle nowMs force).noCornerCutting = ff.noCornerCutting ∧
    (ff.afterThrottle nowMs force).nearestWalkableMaxR = ff.nearestWalkableMaxR ∧
    (ff.afterThrottle nowMs force).heroFootprintPx = ff.heroFootprintPx ∧
    (ff.afterThrottle nowMs force).heroFootprintPreferCenter = ff.heroFootprintPreferCenter := by
  unfold FlowField.afterThrottle
  split
  · exact ⟨rfl, rfl, rfl, rfl, rfl, rfl, rfl, rfl, rfl, rfl⟩
  · exact ⟨rfl, rfl, rfl, rfl, rfl, rfl, rfl, rfl, rfl, rfl⟩

/-- In the not-no-op, not-throttled, in-bounds case, `updateTargetTile`
advances the throttle, records the requested index, and either clears
(unresolved seed) or rebuilds from the resolved seed. -/
theorem updateTargetTile_run (g : NavGrid) (ff : FlowField) (tx ty nowMs : ℤ) (force : Bool)
    (hb : g.inBounds tx ty = true)
    (hno : (!force && (g.idx tx ty == ff.lastRequestedTargetIdx) && ff.builtOk) = false)
    (ht : (!force && decide (nowMs < ff.nextAllowedRebuildMs)) = false) :
    ff.updateTargetTile g tx ty nowMs force =
      match ff.resolveBuildTargetIdx g tx ty with
      | none =>
          { ff.afterThrottle nowMs force with
              lastRequestedTargetIdx := g.idx tx ty
              lastBuiltTargetIdx := -1
              dist := List.replicate ff.dist.length (-1)
              dir := List.replicate ff.dir.length 0 }
      | some b =>
          FlowField.rebuildFromTargetIdx g
            { ff.afterThrottle nowMs force with
                lastRequestedTargetIdx := g.idx tx ty
                lastBuiltTargetIdx := (b : ℤ) } b := by
  unfold FlowField.updateTargetTile
  rw [if_neg (show ¬((!g.inBounds tx ty) = true) by rw [hb]; decide)]
  dsimp only
  rw [if_neg (show ¬((!force && (g.idx tx ty == ff.lastRequestedTargetIdx) && ff.builtOk) = true) by
    rw [hno]; decide)]
  rw [if_neg (show ¬((!force && decide (nowMs < ff.nextAllowedRebuildMs)) = true) by
    rw [ht]; decide)]
  obtain ⟨e1, e2, e3, e4, e5, e6, e7, e8, e9, e10⟩ := afterThrottle_fields ff nowMs force
  rw [resolve_congr g ff
    { ff.afterThrottle nowMs force with lastRequestedTargetIdx := g.idx tx ty } tx ty
    (by show (ff.afterThrottle nowMs force).heroFootprintPx = _; rw [e9])
    (by show (ff.afterThrottle nowMs force).heroFootprintPreferCenter = _; rw [e10])
    (by show (ff.afterThrottle nowMs force).nearestWalkableMaxR = _; rw [e8])]
  cases ff.resolveBuildTargetIdx g tx ty with
  | none =>
    show ({ ff.afterThrottle nowMs force with
              lastRequestedTargetIdx := g.idx tx ty
              lastBuiltTargetIdx := -1
              dist := List.replicate (ff.afterThrottle nowMs force).dist.length (-1)
              dir := List.replicate (ff.afterThrottle nowMs force).dir.length 0 } : FlowField) = _
    rw [e1, e2]
  | some b => rfl

theorem updateTargetTile_shape (g : NavGrid) (ff : FlowField) (tx ty nowMs : ℤ) (force : Bool) :
    ∃ d r lR lB nx2, ff.updateTargetTile g tx ty nowMs force =
      { ff with dist := d
                dir := r
                lastRequestedTargetIdx := lR
                lastBuiltTargetIdx := lB
                nextAllowedRebuildMs := nx2 } := by
  unfold FlowField.updateTargetTile
  split
  · exact ⟨ff.dist, ff.dir, ff.lastRequestedTargetIdx, ff.lastBuiltTargetIdx,
      ff.nextAllowedRebuildMs, rfl⟩
  dsimp only
  split
  · exact ⟨ff.dist, ff.dir, ff.lastRequestedTargetIdx, ff.lastBuiltTargetIdx,
      ff.nextAllowedRebuildMs, rfl⟩
  split
  · exact ⟨ff.dist, ff.dir, ff.lastRequestedTargetIdx, ff.lastBuiltTargetIdx,
      ff.nextAllowedRebuildMs, rfl⟩
  have hsh : ∀ b : ℕ, ∃ d r, FlowField.rebuildFromTargetIdx g
      { ff.afterThrottle nowMs force with
          lastRequestedTargetIdx := g.idx tx ty
          lastBuiltTargetIdx := (b : ℤ) } b =
      { ff.afterThrottle nowMs force with
          lastRequestedTargetIdx := g.idx tx ty
          lastBuiltTargetIdx := (b : ℤ)
          dist := d
          dir := r } := by
    intro b
    obtain ⟨d, r, hdr⟩ := rebuild_shape g
      { ff.afterThrottle nowMs force with
          lastRequestedTargetIdx := g.idx tx ty
          lastBuiltTargetIdx := (b : ℤ) } b
    exact ⟨d, r, hdr⟩
  unfold FlowField.afterThrottle at hsh ⊢
  cases force with
  | true =>
    dsimp only at hsh ⊢
    split
    · exact ⟨_, _, _, _, _, rfl⟩
    · rename_i b _
      obtain ⟨d, r, hdr⟩ := hsh b
      rw [hdr]
      exact ⟨d, r, _, _, _, rfl⟩
  | false =>
    dsimp only at hsh ⊢
    split
    · exact ⟨_, _, _, _, _, rfl⟩
    · rename_i b _
      obtain ⟨d, r, hdr⟩ := hsh b
      rw [hdr]
      exact ⟨d, r, _, _, _, rfl⟩

theorem updateTargetTile_tunables (g : NavGrid) (ff : FlowField) (tx ty nowMs : ℤ)
    (force : Bool) :
    (ff.updateTargetTile g tx ty nowMs force).heroFootprintPx = ff.heroFootprintPx ∧
    (ff.updateTargetTile g tx ty nowMs force).heroFootprintPreferCenter =
      ff.heroFootprintPreferCenter ∧
    (ff.updateTargetTile g tx ty nowMs force).nearestWalkableMaxR = ff.nearestWalkableMaxR ∧
    (ff.updateTargetTile g tx ty nowMs force).useDiagonals = ff.useDiagonals ∧
    (ff.updateTargetTile g tx ty nowMs force).noCornerCutting = ff.noCornerCutting := by
  obtain ⟨d, r, lR, lB, nx2, h⟩ := updateTargetTile_shape g ff tx ty nowMs force
  rw [h]
  exact ⟨rfl, rfl, rfl, rfl, rfl⟩

/-! ## Claim C8: unresolvable seed clears the field -/

theorem getD_replicate_self {α : Type} (n i : ℕ) (v : α) :
    (List.replicate n v).getD i v = v := by
  by_cases h : i < n
  · exact getD_replicate n i v v h
  · exact getD_out_of_range _ _ _ (by rw [List.length_replicate]; omega)

/-- C8: when no walkable seed resolves (neither in the footprint window nor
within the ring-search radius), `updateTargetTile` clears both fields to
all `-1` / all `0`, records no built seed (`-1`), and returns normally; the
failure is observable only through the distance/direction values. -/
theorem updateTarget_unresolvable_clears (g : NavGrid) (ff : FlowField)
    (tx ty nowMs : ℤ) (force : Bool)
    (hb : g.inBounds tx ty = true)
    (hno : (!force && (g.idx tx ty == ff.lastRequestedTargetIdx) && ff.builtOk) = false)
    (ht : (!force && decide (nowMs < ff.nextAllowedRebuildMs)) = false)
    (hres : ff.resolveBuildTargetIdx g tx ty = none) :
    (ff.updateTargetTile g tx ty nowMs force).dist = List.replicate ff.dist.length (-1) ∧
    (ff.updateTargetTile g tx ty nowMs force).dir = List.replicate ff.dir.length 0 ∧
    (ff.updateTargetTile g tx ty nowMs force).lastBuiltTargetIdx = -1 ∧
    (∀ cx cy : ℤ, (ff.updateTargetTile g tx ty nowMs force).distanceAt g cx cy = -1 ∧
      (ff.updateTargetTile g tx ty nowMs force).directionAt g cx cy = 0) := by
  have hrun := updateTargetTile_run g ff tx ty nowMs force hb hno ht
  rw [hres] at hrun
  rw [hrun]
  refine ⟨rfl, rfl, rfl, ?_⟩
  intro cx cy
  constructor
  · show (List.replicate ff.dist.length (-1 : ℤ)).getD (g.idx cx cy).toNat (-1) = -1
    exact getD_replicate_self _ _ _
  · show (List.replicate ff.dir.length (0 : ℤ)).getD (g.idx cx cy).toNat 0 = 0
    exact getD_replicate_self _ _ _

/-- Witness for C8 on a fully blocked 1×1 grid: the seed cannot be resolved
and the call clears the field. -/
theorem updateTarget_unresolvable_clears_witness :
    c8Grid.inBounds 0 0 = true ∧
    (FlowField.init c8Grid).resolveBuildTargetIdx c8Grid 0 0 = none ∧
    ((FlowField.init c8Grid).updateTargetTile c8Grid 0 0 5 false).dist =
      List.replicate (FlowField.init c8Grid).dist.length (-1) ∧
    ((FlowField.init c8Grid).updateTargetTile c8Grid 0 0 5 false).lastBuiltTargetIdx = -1 := by
  have h := updateTarget_unresolvable_clears c8Grid (FlowField.init c8Grid) 0 0 5 false
    (by decide) (by decide) (by decide) (by decide)
  exact ⟨by decide, by decide, h.1, h.2.2.1⟩

/-! ## Claim C7: idempotence of updateTarget -/

theorem didRebuild_components (g : NavGrid) (ff : FlowField) (tx ty now : ℤ) (force : Bool)
    (h : ff.didRebuild g tx ty now force = true) :
    g.inBounds tx ty = true ∧
    (!force && (g.idx tx ty == ff.lastRequestedTargetIdx) && ff.builtOk) = false ∧
    (!force && decide (now < ff.nextAllowedRebuildMs)) = false ∧
    ∃ b, ff.resolveBuildTargetIdx g tx ty = some b := by
  unfold FlowField.didRebuild at h
  simp only [Bool.and_eq_true, Bool.not_eq_true', Option.isSome_iff_exists] at h
  obtain ⟨⟨⟨h1, h2⟩, h3⟩, b, h4⟩ := h
  exact ⟨h1, h2, h3, b, h4⟩

/-- After a call that performs a rebuild, the requested index is recorded and
the field is validly built (`builtOk`). -/
theorem update_after_rebuild (g : NavGrid) (ff : FlowField) (tx ty now : ℤ) (force : Bool)
    (h : ff.didRebuild g tx ty now force = true) :
    (ff.updateTargetTile g tx ty now force).lastRequestedTargetIdx = g.idx tx ty ∧
    (ff.updateTargetTile g tx ty now force).builtOk = true := by
  obtain ⟨hb, hno, ht, b, hres⟩ := didRebuild_components g ff tx ty now force h
  have hrun := updateTargetTile_run g ff tx ty now force hb hno ht
  rw [hres] at hrun
  dsimp only at hrun
  obtain ⟨hwalk, hlt, hw⟩ := resolve_some_walkable g ff tx ty b hres
  obtain ⟨hlen, hzero⟩ := rebuild_seed_zero g
    { ff.afterThrottle now force with
        lastRequestedTargetIdx := g.idx tx ty
        lastBuiltTargetIdx := (b : ℤ) } b hw hwalk
  obtain ⟨d, r, hdr⟩ := rebuild_shape g
    { ff.afterThrottle now force with
        lastRequestedTargetIdx := g.idx tx ty
        lastBuiltTargetIdx := (b : ℤ) } b
  rw [hdr] at hrun hlen hzero
  rw [hrun]
  constructor
  · rfl
  · show (decide (0 ≤ (b : ℤ)) && decide ((b : ℤ) < (d.length : ℤ))
      && (d.getD (b : ℤ).toNat 0 == 0)) = true
    have hdl : d.length = g.size := hlen
    have hblt : b < d.length := by rw [hdl]; exact hlt
    have hd0 : d.getD (b : ℤ).toNat 0 = 0 := by
      rw [Int.toNat_natCast, getD_congr_default _ _ _ (-1) hblt]
      exact hzero
    rw [hd0]
    simp [hblt]

/-- C7: calling `updateTarget` twice with the same world coordinates and
`force = false` performs at most one rebuild; and whenever the second call's
requested index equals the recorded one and the field is validly built, the
second call is a no-op that changes no state. -/
theorem updateTarget_same_world_at_most_one_rebuild (g : NavGrid) (ff : FlowField)
    (x y t1 t2 : ℤ) :
    ((ff.didRebuild g (g.worldToTile x y).1 (g.worldToTile x y).2 t1 false).toNat +
      ((ff.updateTargetWorld g x y t1 false).didRebuild g
        (g.worldToTile x y).1 (g.worldToTile x y).2 t2 false).toNat ≤ 1) ∧
    ((g.idx (g.worldToTile x y).1 (g.worldToTile x y).2 =
        (ff.updateTargetWorld g x y t1 false).lastRequestedTargetIdx ∧
      (ff.updateTargetWorld g x y t1 false).builtOk = true) →
      (ff.updateTargetWorld g x y t1 false).updateTargetWorld g x y t2 false =
        ff.updateTargetWorld g x y t1 false) := by
  have hworld : ∀ (f2 : FlowField) (t : ℤ), f2.updateTargetWorld g x y t false =
      f2.updateTargetTile g (g.worldToTile x y).1 (g.worldToTile x y).2 t false := by
    intro f2 t
    rfl
  constructor
  · by_cases hr1 : ff.didRebuild g (g.worldToTile x y).1 (g.worldToTile x y).2 t1 false = true
    · obtain ⟨hreq, hok⟩ := update_after_rebuild g ff (g.worldToTile x y).1
        (g.worldToTile x y).2 t1 false hr1
      have hr2 : ((ff.updateTargetWorld g x y t1 false).didRebuild g
          (g.worldToTile x y).1 (g.worldToTile x y).2 t2 false) = false := by
        rw [hworld]
        unfold FlowField.didRebuild
        rw [hok, beq_iff_eq.mpr hreq.symm]
        simp
      rw [hr1, hr2]
      decide
    · have : ff.didRebuild g (g.worldToTile x y).1 (g.worldToTile x y).2 t1 false = false := by
        cases h : ff.didRebuild g (g.worldToTile x y).1 (g.worldToTile x y).2 t1 false
        · rfl
        · exact absurd h hr1
      rw [this]
      cases ((ff.updateTargetWorld g x y t1 false).didRebuild g
          (g.worldToTile x y).1 (g.worldToTile x y).2 t2 false) <;> decide
  · intro hpre
    obtain ⟨hidx, hok⟩ := hpre
    generalize hgen : ff.updateTargetWorld g x y t1 false = ff1 at hidx hok ⊢
    rw [hworld]
    by_cases hbnd : g.inBounds (g.worldToTile x y).1 (g.worldToTile x y).2 = true
    · unfold FlowField.updateTargetTile
      rw [if_neg (show ¬((!g.inBounds (g.worldToTile x y).1 (g.worldToTile x y).2) = true) by
        rw [hbnd]; decide)]
      dsimp only
      rw [if_pos]
      rw [hok, beq_iff_eq.mpr hidx]
      simp
    · have hbf : g.inBounds (g.worldToTile x y).1 (g.worldToTile x y).2 = false := by
        cases h : g.inBounds (g.worldToTile x y).1 (g.worldToTile x y).2
        · rfl
        · exact absurd h hbnd
      unfold FlowField.updateTargetTile
      rw [if_pos (show (!g.inBounds (g.worldToTile x y).1 (g.worldToTile x y).2) = true by
        rw [hbf]; decide)]

set_option maxRecDepth 8000 in
/-- Witness for C7 on a 4×4 all-walkable grid: a repeated same-coordinates
call is a no-op. -/
theorem updateTarget_same_world_at_most_one_rebuild_witness :
    ((FlowField.init c3Grid).updateTargetWorld c3Grid 17 17 0 false).updateTargetWorld
        c3Grid 17 17 500 false =
      (FlowField.init c3Grid).updateTargetWorld c3Grid 17 17 0 false :=
  (updateTarget_same_world_at_most_one_rebuild c3Grid (FlowField.init c3Grid) 17 17 0 500).2
    ⟨by decide, by decide⟩

/-! ## Claim C3: seed stability -/

/-- C3 (amended): two successive calls that both perform a rebuild with the
*same* requested cell build the same seed; moving the target to a different
cell — even inside the previous footprint window — recentres the window and
may change the seed. -/
theorem seed_stable_same_requested_cell (g : NavGrid) (ff : FlowField) (tx ty t1 t2 : ℤ)
    (f1 f2 : Bool)
    (h1 : ff.didRebuild g tx ty t1 f1 = true)
    (h2 : (ff.updateTargetTile g tx ty t1 f1).didRebuild g tx ty t2 f2 = true) :
    ((ff.updateTargetTile g tx ty t1 f1).updateTargetTile g tx ty t2 f2).lastBuiltTargetIdx =
      (ff.updateTargetTile g tx ty t1 f1).lastBuiltTargetIdx := by
  obtain ⟨hb, hno1, ht1, b, hres1⟩ := didRebuild_components g ff tx ty t1 f1 h1
  have hrun1 := updateTargetTile_run g ff tx ty t1 f1 hb hno1 ht1
  rw [hres1] at hrun1
  dsimp only at hrun1
  obtain ⟨d, r, hdr⟩ := rebuild_shape g
    { ff.afterThrottle t1 f1 with
        lastRequestedTargetIdx := g.idx tx ty
        lastBuiltTargetIdx := (b : ℤ) } b
  rw [hdr] at hrun1
  have hlb1 : (ff.updateTargetTile g tx ty t1 f1).lastBuiltTargetIdx = (b : ℤ) := by
    rw [hrun1]
  obtain ⟨e1, e2, e3, _, _⟩ := updateTargetTile_tunables g ff tx ty t1 f1
  have hres2 : (ff.updateTargetTile g tx ty t1 f1).resolveBuildTargetIdx g tx ty = some b := by
    rw [resolve_congr g ff (ff.updateTargetTile g tx ty t1 f1) tx ty e1 e2 e3]
    exact hres1
  obtain ⟨hb2, hno2, ht2, b2, hres2'⟩ := didRebuild_components g
    (ff.updateTargetTile g tx ty t1 f1) tx ty t2 f2 h2
  have hbb : b2 = b := by
    rw [hres2'] at hres2
    injection hres2
  have hrun2 := updateTargetTile_run g (ff.updateTargetTile g tx ty t1 f1) tx ty t2 f2
    hb2 hno2 ht2
  rw [hres2'] at hrun2
  dsimp only at hrun2
  obtain ⟨d2, r2, hdr2⟩ := rebuild_shape g
    { (ff.updateTargetTile g tx ty t1 f1).afterThrottle t2 f2 with
        lastRequestedTargetIdx := g.idx tx ty
        lastBuiltTargetIdx := (b2 : ℤ) } b2
  rw [hdr2] at hrun2
  rw [hrun2, hlb1]
  show (b2 : ℤ) = (b : ℤ)
  rw [hbb]

set_option maxRecDepth 8000 in
/-- C3 counterexample: on a 4×4 all-walkable grid, the target moves from cell
(2,2) to (2,3) — offset (0,1), inside the first call's footprint window of
half-width 2 — both calls rebuild, yet the built seed changes from index 10
to index 14: the footprint window recentres on the new requested cell. -/
theorem seed_stability_counterexample :
    (FlowField.init c3Grid).didRebuild c3Grid 2 2 0 false = true ∧
    ((FlowField.init c3Grid).updateTargetTile c3Grid 2 2 0 false).didRebuild
      c3Grid 2 3 500 false = true ∧
    ((2 : ℤ) - 2, (3 : ℤ) - 2) ∈ footprintOffsets
      (jsFloorDiv (max 0 (FlowField.init c3Grid).heroFootprintPx)
        (2 * c3Grid.cellSize)).toNat ∧
    ((FlowField.init c3Grid).updateTargetTile c3Grid 2 2 0 false).lastBuiltTargetIdx = 10 ∧
    (((FlowField.init c3Grid).updateTargetTile c3Grid 2 2 0 false).updateTargetTile
      c3Grid 2 3 500 false).lastBuiltTargetIdx = 14 ∧
    (10 : ℤ) ≠ 14 := by
  refine ⟨?_, ?_, ?_, ?_, ?_, ?_⟩ <;> decide

set_option maxRecDepth 8000 in
/-- Witness for the amended C3: same requested cell (2,2) in both calls (the
second forced), equal built seeds. -/
theorem seed_stable_same_requested_cell_witness :
    (((FlowField.init c3Grid).updateTargetTile c3Grid 2 2 0 false).updateTargetTile
      c3Grid 2 2 100 true).lastBuiltTargetIdx =
    ((FlowField.init c3Grid).updateTargetTile c3Grid 2 2 0 false).lastBuiltTargetIdx :=
  seed_stable_same_requested_cell c3Grid (FlowField.init c3Grid) 2 2 0 100 false true
    (by decide) (by decide)

/-! ## Direction pass: admissibility and fold characterisation -/

theorem canStepDiag_symm (g : NavGrid) (noCC : Bool) (cx cy nx ny : ℤ) :
    canStepDiag g noCC cx cy nx ny = canStepDiag g noCC nx ny cx cy := by
  unfold canStepDiag
  split
  · rfl
  · dsimp only
    have e1 : cx + (nx - cx) = nx := by ring
    have e2 : cy + (ny - cy) = ny := by ring
    have e3 : nx + (cx - nx) = cx := by ring
    have e4 : ny + (cy - ny) = cy := by ring
    rw [e1, e2, e3, e4]
    exact Bool.and_comm _ _

theorem considerStep_eq (g : NavGrid) (noCC allowDiag : Bool) (dist : List ℤ) (tx ty : ℤ)
    (best : ℤ × ℤ) (c : ℤ × ℤ × ℤ × Bool) :
    considerStep g noCC allowDiag dist tx ty best c =
      if considerOk g noCC allowDiag tx ty c = true then
        (if 0 ≤ cVal g dist c ∧ cVal g dist c < best.1 then (cVal g dist c, c.2.2.1) else best)
      else best := by
  unfold considerStep considerOk cVal
  cases hb : g.inBounds c.1 c.2.1 <;>
    cases hw : g.isWalkable c.1 c.2.1 <;>
      cases hd : (c.2.2.2 && allowDiag && noCC && !canStepDiag g noCC tx ty c.1 c.2.1) <;>
        simp [hb, hw, hd]

theorem getD_mem_of_lt {α : Type} (l : List α) (n : ℕ) (d : α) (h : n < l.length) :
    l.getD n d ∈ l := by
  rw [List.getD_eq_getElem l d h]
  exact List.getElem_mem h

theorem considerFold_char (g : NavGrid) (noCC allowDiag : Bool) (dist : List ℤ) (tx ty : ℤ)
    (L : List (ℤ × ℤ × ℤ × Bool)) (b0 d0 : ℤ) :
    ((L.foldl (considerStep g noCC allowDiag dist tx ty) (b0, d0) = (b0, d0)) ∧
      (∀ c ∈ L, considerOk g noCC allowDiag tx ty c = true →
        cVal g dist c < 0 ∨ b0 ≤ cVal g dist c)) ∨
    (∃ k, k < L.length ∧
      considerOk g noCC allowDiag tx ty (L.getD k dummyCand) = true ∧
      0 ≤ cVal g dist (L.getD k dummyCand) ∧
      cVal g dist (L.getD k dummyCand) < b0 ∧
      L.foldl (considerStep g noCC allowDiag dist tx ty) (b0, d0) =
        (cVal g dist (L.getD k dummyCand), (L.getD k dummyCand).2.2.1) ∧
      (∀ j, j < k → considerOk g noCC allowDiag tx ty (L.getD j dummyCand) = true →
        cVal g dist (L.getD j dummyCand) < 0 ∨
        cVal g dist (L.getD k dummyCand) < cVal g dist (L.getD j dummyCand)) ∧
      (∀ j, k < j → j < L.length →
        considerOk g noCC allowDiag tx ty (L.getD j dummyCand) = true →
        cVal g dist (L.getD j dummyCand) < 0 ∨
        cVal g dist (L.getD k dummyCand) ≤ cVal g dist (L.getD j dummyCand))) := by
  induction L generalizing b0 d0 with
  | nil =>
    left
    exact ⟨rfl, by intro c hc; cases hc⟩
  | cons c cs ih =>
    rw [List.foldl_cons, considerStep_eq]
    by_cases hok : considerOk g noCC allowDiag tx ty c = true
    · rw [if_pos hok]
      by_cases hlt : 0 ≤ cVal g dist c ∧ cVal g dist c < b0
      · rw [if_pos hlt]
        rcases ih (cVal g dist c) c.2.2.1 with ⟨heq, hall⟩ | ⟨k, hk, hokk, h0k, hkb, heqk, hearly, hlate⟩
        · right
          refine ⟨0, by simp, ?_⟩
          simp only [List.getD_cons_zero]
          refine ⟨hok, hlt.1, hlt.2, heq, by omega, ?_⟩
          intro j hj0 hjlen hokj
          have hj : j - 1 < cs.length := by simp at hjlen; omega
          have hgd : (c :: cs).getD j dummyCand = cs.getD (j - 1) dummyCand := by
            cases j with
            | zero => omega
            | succ j2 => simp [List.getD_cons_succ]
          rw [hgd] at hokj ⊢
          exact hall _ (getD_mem_of_lt cs (j - 1) dummyCand hj) hokj
        · right
          refine ⟨k + 1, by simp; omega, ?_⟩
          simp only [List.getD_cons_succ]
          refine ⟨hokk, h0k, by omega, heqk, ?_, ?_⟩
          · intro j hj hokj
            cases j with
            | zero =>
              simp only [List.getD_cons_zero] at hokj ⊢
              right
              exact hkb
            | succ j2 =>
              simp only [List.getD_cons_succ] at hokj ⊢
              exact hearly j2 (by omega) hokj
          · intro j hj hjlen hokj
            cases j with
            | zero => omega
            | succ j2 =>
              simp only [List.getD_cons_succ] at hokj ⊢
              exact hlate j2 (by omega) (by simp at hjlen; omega) hokj
      · rw [if_neg hlt]
        rcases ih b0 d0 with ⟨heq, hall⟩ | ⟨k, hk, hokk, h0k, hkb, heqk, hearly, hlate⟩
        · left
          refine ⟨heq, ?_⟩
          intro c2 hc2 hok2
          rcases List.mem_cons.mp hc2 with h | h
          · rw [h]
            omega
          · exact hall c2 h hok2
        · right
          refine ⟨k + 1, by simp; omega, ?_⟩
          simp only [List.getD_cons_succ]
          refine ⟨hokk, h0k, hkb, heqk, ?_, ?_⟩
          · intro j hj hokj
            cases j with
            | zero =>
              simp only [List.getD_cons_zero] at hokj ⊢
              omega
            | succ j2 =>
              simp only [List.getD_cons_succ] at hokj ⊢
              exact hearly j2 (by omega) hokj
          · intro j hj hjlen hokj
            cases j with
            | zero => omega
            | succ j2 =>
              simp only [List.getD_cons_succ] at hokj ⊢
              exact hlate j2 (by omega) (by simp at hjlen; omega) hokj
    · rw [if_neg hok]
      rcases ih b0 d0 with ⟨heq, hall⟩ | ⟨k, hk, hokk, h0k, hkb, heqk, hearly, hlate⟩
      · left
        refine ⟨heq, ?_⟩
        intro c2 hc2 hok2
        rcases List.mem_cons.mp hc2 with h | h
        · rw [h] at hok2
          exact absurd hok2 hok
        · exact hall c2 h hok2
      · right
        refine ⟨k + 1, by simp; omega, ?_⟩
        simp only [List.getD_cons_succ]
        refine ⟨hokk, h0k, hkb, heqk, ?_, ?_⟩
        · intro j hj hokj
          cases j with
          | zero =>
            simp only [List.getD_cons_zero] at hokj
            exact absurd hokj hok
          | succ j2 =>
            simp only [List.getD_cons_succ] at hokj ⊢
            exact hearly j2 (by omega) hokj
        · intro j hj hjlen hokj
          cases j with
          | zero => omega
          | succ j2 =>
            simp only [List.getD_cons_succ] at hokj ⊢
            exact hlate j2 (by omega) (by simp at hjlen; omega) hokj

theorem buildDirField_getD (g : NavGrid) (noCC allowDiag : Bool) (dist : List ℤ) (tx ty : ℤ)
    (hb : g.inBounds tx ty = true) :
    (buildDirField g noCC allowDiag dist).getD (g.idx tx ty).toNat 0 =
      (if !g.isWalkable tx ty then 0
       else if dist.getD (g.idx tx ty).toNat (-1) < 0 then 0
       else if dist.getD (g.idx tx ty).toNat (-1) = 0 then 0
       else pickDir g noCC allowDiag dist tx ty (dist.getD (g.idx tx ty).toNat (-1))) := by
  unfold buildDirField
  rw [getD_map_range _ _ _ _ (g.toNat_idx_lt tx ty hb)]
  dsimp only
  rw [g.cellX_idx tx ty hb, g.cellY_idx tx ty hb]

/-- After a rebuild, the direction at an in-bounds cell is either 0, or the
code of a first-argmin admissible candidate of the direction pass. -/
theorem rebuild_dir_cases (g : NavGrid) (ff : FlowField) (targetIdx : ℕ) (tx ty : ℤ)
    (hb : g.inBounds tx ty = true) :
    ((ff.rebuildFromTargetIdx g targetIdx).directionAt g tx ty = 0 ∧
      (g.isWalkable tx ty = false ∨
        (ff.rebuildFromTargetIdx g targetIdx).distanceAt g tx ty ≤ 0 ∨
        (∀ c ∈ dirCands tx ty ff.useDiagonals,
          considerOk g ff.noCornerCutting ff.useDiagonals tx ty c = true →
          cVal g (ff.rebuildFromTargetIdx g targetIdx).dist c < 0 ∨
          (ff.rebuildFromTargetIdx g targetIdx).distanceAt g tx ty ≤
            cVal g (ff.rebuildFromTargetIdx g targetIdx).dist c))) ∨
    (g.isWalkable tx ty = true ∧
      0 < (ff.rebuildFromTargetIdx g targetIdx).distanceAt g tx ty ∧
      ∃ k, k < (dirCands tx ty ff.useDiagonals).length ∧
        considerOk g ff.noCornerCutting ff.useDiagonals tx ty
          ((dirCands tx ty ff.useDiagonals).getD k dummyCand) = true ∧
        0 ≤ cVal g (ff.rebuildFromTargetIdx g targetIdx).dist
          ((dirCands tx ty ff.useDiagonals).getD k dummyCand) ∧
        cVal g (ff.rebuildFromTargetIdx g targetIdx).dist
            ((dirCands tx ty ff.useDiagonals).getD k dummyCand) <
          (ff.rebuildFromTargetIdx g targetIdx).distanceAt g tx ty ∧
        (ff.rebuildFromTargetIdx g targetIdx).directionAt g tx ty =
          ((dirCands tx ty ff.useDiagonals).getD k dummyCand).2.2.1 ∧
        (∀ j, j < k →
          considerOk g ff.noCornerCutting ff.useDiagonals tx ty
            ((dirCands tx ty ff.useDiagonals).getD j dummyCand) = true →
          cVal g (ff.rebuildFromTargetIdx g targetIdx).dist
            ((dirCands tx ty ff.useDiagonals).getD j dummyCand) < 0 ∨
          cVal g (ff.rebuildFromTargetIdx g targetIdx).dist
              ((dirCands tx ty ff.useDiagonals).getD k dummyCand) <
            cVal g (ff.rebuildFromTargetIdx g targetIdx).dist
              ((dirCands tx ty ff.useDiagonals).getD j dummyCand)) ∧
        (∀ j, k < j → j < (dirCands tx ty ff.useDiagonals).length →
          considerOk g ff.noCornerCutting ff.useDiagonals tx ty
            ((dirCands tx ty ff.useDiagonals).getD j dummyCand) = true →
          cVal g (ff.rebuildFromTargetIdx g targetIdx).dist
            ((dirCands tx ty ff.useDiagonals).getD j dummyCand) < 0 ∨
          cVal g (ff.rebuildFromTargetIdx g targetIdx).dist
              ((dirCands tx ty ff.useDiagonals).getD k dummyCand) ≤
            cVal g (ff.rebuildFromTargetIdx g targetIdx).dist
              ((dirCands tx ty ff.useDiagonals).getD j dummyCand))) := by
  have hbb := hb
  rw [NavGrid.inBounds_iff] at hbb
  have hw0 : ¬(g.w = 0 ∨ g.h = 0) := by omega
  have hlt := g.toNat_idx_lt tx ty hb
  unfold FlowField.rebuildFromTargetIdx
  rw [if_neg hw0]
  dsimp only
  split
  · left
    constructor
    · show (List.replicate g.size (0 : ℤ)).getD (g.idx tx ty).toNat 0 = 0
      exact getD_replicate_self _ _ _
    · right
      left
      show (List.replicate g.size (-1 : ℤ)).getD (g.idx tx ty).toNat (-1) ≤ 0
      rw [getD_replicate_self]
      decide
  · generalize (bfsLoop g ff.noCornerCutting ff.useDiagonals
      (((List.replicate g.size (-1 : ℤ)).set targetIdx 0).countP (· == -1) + 1)
      ((List.replicate g.size (-1 : ℤ)).set targetIdx 0) [targetIdx] [targetIdx]).1 = D
    have hdir : FlowField.directionAt g
        { ff with dist := D, dir := buildDirField g ff.noCornerCutting ff.useDiagonals D }
        tx ty = (buildDirField g ff.noCornerCutting ff.useDiagonals D).getD
          (g.idx tx ty).toNat 0 := rfl
    have hdst : FlowField.distanceAt g
        { ff with dist := D, dir := buildDirField g ff.noCornerCutting ff.useDiagonals D }
        tx ty = D.getD (g.idx tx ty).toNat (-1) := rfl
    rw [hdir, hdst, buildDirField_getD g _ _ D tx ty hb]
    by_cases hwk : g.isWalkable tx ty = true
    · rw [if_neg (show ¬((!g.isWalkable tx ty) = true) by rw [hwk]; decide)]
      by_cases hneg : D.getD (g.idx tx ty).toNat (-1) < 0
      · rw [if_pos hneg]
        left
        exact ⟨rfl, Or.inr (Or.inl (by omega))⟩
      · rw [if_neg hneg]
        by_cases hz : D.getD (g.idx tx ty).toNat (-1) = 0
        · rw [if_pos hz]
          left
          exact ⟨rfl, Or.inr (Or.inl (by omega))⟩
        · rw [if_neg hz]
          unfold pickDir
          rcases considerFold_char g ff.noCornerCutting ff.useDiagonals D tx ty
            (dirCands tx ty ff.useDiagonals) (D.getD (g.idx tx ty).toNat (-1)) 0 with
            ⟨heq, hall⟩ | ⟨k, hk, hokk, h0k, hkb, heqk, hearly, hlate⟩
          · left
            refine ⟨by rw [heq], Or.inr (Or.inr ?_)⟩
            intro c hc hok
            exact hall c hc hok
          · right
            refine ⟨hwk, by omega, k, hk, hokk, h0k, hkb, by rw [heqk], hearly, hlate⟩
    · have hwf : g.isWalkable tx ty = false := by
        cases h : g.isWalkable tx ty
        · rfl
        · exact absurd h hwk
      rw [if_pos (by rw [hwf]; decide)]
      left
      exact ⟨rfl, Or.inl hwf⟩

theorem considerOk_diag_flanks (g : NavGrid) (allowDiag : Bool) (tx ty nx ny : ℤ) (code : ℤ)
    (had : allowDiag = true)
    (h : considerOk g true allowDiag tx ty (nx, ny, code, true) = true) :
    g.isWalkable (tx + (nx - tx)) ty = true ∧ g.isWalkable tx (ty + (ny - ty)) = true := by
  unfold considerOk at h
  dsimp only at h
  rw [had] at h
  simp only [Bool.and_eq_true, Bool.not_eq_true'] at h
  obtain ⟨⟨hib, hwk⟩, hdiag⟩ := h
  have hcs : canStepDiag g true tx ty nx ny = true := by
    revert hdiag
    cases canStepDiag g true tx ty nx ny <;> simp
  unfold canStepDiag at hcs
  rw [if_neg (by decide)] at hcs
  dsimp only at hcs
  simp only [Bool.and_eq_true] at hcs
  exact hcs

/-- C5: with corner-cutting disallowed, after any rebuild, every in-bounds
cell whose chosen direction is a diagonal (5 up-right, 6 down-right,
7 down-left, 8 up-left) has both flanking orthogonal neighbours of that
diagonal step walkable. -/
theorem flowField_no_corner_cutting (g : NavGrid) (ff : FlowField) (targetIdx : ℕ)
    (tx ty : ℤ) (hncc : ff.noCornerCutting = true) (hb : g.inBounds tx ty = true) :
    ((ff.rebuildFromTargetIdx g targetIdx).directionAt g tx ty = 5 →
      g.isWalkable (tx + 1) ty = true ∧ g.isWalkable tx (ty - 1) = true) ∧
    ((ff.rebuildFromTargetIdx g targetIdx).directionAt g tx ty = 6 →
      g.isWalkable (tx + 1) ty = true ∧ g.isWalkable tx (ty + 1) = true) ∧
    ((ff.rebuildFromTargetIdx g targetIdx).directionAt g tx ty = 7 →
      g.isWalkable (tx - 1) ty = true ∧ g.isWalkable tx (ty + 1) = true) ∧
    ((ff.rebuildFromTargetIdx g targetIdx).directionAt g tx ty = 8 →
      g.isWalkable (tx - 1) ty = true ∧ g.isWalkable tx (ty - 1) = true) := by
  rcases rebuild_dir_cases g ff targetIdx tx ty hb with
    ⟨h0, _⟩ | ⟨_, _, k, hk, hok, _, _, hcode, _, _⟩
  · rw [h0]
    refine ⟨?_, ?_, ?_, ?_⟩ <;> (intro h; omega)
  · rw [hncc] at hok
    cases had : ff.useDiagonals with
    | false =>
      rw [had] at hk hok hcode
      have hlen : (dirCands tx ty false).length = 4 := by simp [dirCands]
      rw [hlen] at hk
      refine ⟨?_, ?_, ?_, ?_⟩ <;> intro h <;> rw [hcode] at h <;> interval_cases k <;>
        simp [dirCands, List.getD_cons_zero, List.getD_cons_succ, dummyCand] at h
    | true =>
      rw [had] at hk hok hcode
      have hlen : (dirCands tx ty true).length = 8 := by simp [dirCands]
      rw [hlen] at hk
      refine ⟨?_, ?_, ?_, ?_⟩
      · intro h
        rw [hcode] at h
        interval_cases k
        all_goals try simp [dirCands, List.getD_cons_zero, List.getD_cons_succ, dummyCand] at h
        rw [show (dirCands tx ty true).getD 4 dummyCand = (tx + 1, ty - 1, 5, true) from rfl] at hok
        obtain ⟨f1, f2⟩ := considerOk_diag_flanks g true tx ty (tx + 1) (ty - 1) 5 rfl hok
        have e1 : tx + (tx + 1 - tx) = tx + 1 := by ring
        have e2 : ty + (ty - 1 - ty) = ty - 1 := by ring
        rw [e1] at f1
        rw [e2] at f2
        exact ⟨f1, f2⟩
      · intro h
        rw [hcode] at h
        interval_cases k
        all_goals try simp [dirCands, List.getD_cons_zero, List.getD_cons_succ, dummyCand] at h
        rw [show (dirCands tx ty true).getD 5 dummyCand = (tx + 1, ty + 1, 6, true) from rfl] at hok
        obtain ⟨f1, f2⟩ := considerOk_diag_flanks g true tx ty (tx + 1) (ty + 1) 6 rfl hok
        have e1 : tx + (tx + 1 - tx) = tx + 1 := by ring
        have e2 : ty + (ty + 1 - ty) = ty + 1 := by ring
        rw [e1] at f1
        rw [e2] at f2
        exact ⟨f1, f2⟩
      · intro h
        rw [hcode] at h
        interval_cases k
        all_goals try simp [dirCands, List.getD_cons_zero, List.getD_cons_succ, dummyCand] at h
        rw [show (dirCands tx ty true).getD 6 dummyCand = (tx - 1, ty + 1, 7, true) from rfl] at hok
        obtain ⟨f1, f2⟩ := considerOk_diag_flanks g true tx ty (tx - 1) (ty + 1) 7 rfl hok
        have e1 : tx + (tx - 1 - tx) = tx - 1 := by ring
        have e2 : ty + (ty + 1 - ty) = ty + 1 := by ring
        rw [e1] at f1
        rw [e2] at f2
        exact ⟨f1, f2⟩
      · intro h
        rw [hcode] at h
        interval_cases k
        all_goals try simp [dirCands, List.getD_cons_zero, List.getD_cons_succ, dummyCand] at h
        rw [show (dirCands tx ty true).getD 7 dummyCand = (tx - 1, ty - 1, 8, true) from rfl] at hok
        obtain ⟨f1, f2⟩ := considerOk_diag_flanks g true tx ty (tx - 1) (ty - 1) 8 rfl hok
        have e1 : tx + (tx - 1 - tx) = tx - 1 := by ring
        have e2 : ty + (ty - 1 - ty) = ty - 1 := by ring
        rw [e1] at f1
        rw [e2] at f2
        exact ⟨f1, f2⟩

set_option maxRecDepth 8000 in
/-- Witness for C5: on the 4×4 all-walkable grid with seed cell 10, the cell
(0,0) points down-right (code 6) and both flanking neighbours are walkable. -/
theorem flowField_no_corner_cutting_witness :
    ((FlowField.init c3Grid).rebuildFromTargetIdx c3Grid 10).directionAt c3Grid 0 0 = 6 ∧
    c3Grid.isWalkable (0 + 1) 0 = true ∧ c3Grid.isWalkable 0 (0 + 1) = true := by
  refine ⟨by decide, ?_⟩
  exact (flowField_no_corner_cutting c3Grid (FlowField.init c3Grid) 10 0 0
    (by decide) (by decide)).2.1 (by decide)

/-! ## BFS invariant, per-dequeue layer -/

theorem countP_set_neg1 (l : List ℤ) (i : ℕ) (v : ℤ) (hi : i < l.length)
    (hold : l.getD i (-1) = -1) (hv : v ≠ -1) :
    (l.set i v).countP (· == -1) + 1 = l.countP (· == -1) := by
  induction l generalizing i with
  | nil => simp at hi
  | cons a t ih =>
    cases i with
    | zero =>
      have ha : a = -1 := hold
      simp only [List.set_cons_zero, List.countP_cons, ha]
      have hv2 : (v == -1) = false := by
        cases h : v == -1
        · rfl
        · exact absurd (by simpa using h) hv
      simp [hv2]
    | succ j =>
      have hj : j < t.length := by simp at hi; omega
      have ht : t.getD j (-1) = -1 := hold
      simp only [List.set_cons_succ, List.countP_cons]
      have := ih j hj ht
      omega

theorem visitOk_init (g : NavGrid) (noCC allowDiag : Bool) (cx cy : ℤ) (curD : ℤ)
    (dist0 : List ℤ) : VisitOk g noCC allowDiag cx cy curD dist0 (dist0, []) where
  len := rfl
  untouched := fun _ _ => rfl
  fresh := fun _ h => absurd h (List.not_mem_nil _)
  val := fun _ h => absurd h (List.not_mem_nil _)
  lt := fun _ h => absurd h (List.not_mem_nil _)
  walk := fun _ h => absurd h (List.not_mem_nil _)
  nodup := List.nodup_nil
  adj := fun _ h => absurd h (List.not_mem_nil _)
  cnt := rfl

theorem bfsVisit_ok (g : NavGrid) (noCC allowDiag : Bool) (cx cy : ℤ) (curD : ℤ)
    (dist0 : List ℤ) (hcur : 0 ≤ curD) (st : List ℤ × List ℕ)
    (hst : VisitOk g noCC allowDiag cx cy curD dist0 st) (nx ny : ℤ) (isDiag : Bool)
    (hmem : (nx, ny, isDiag) ∈ neighborCands cx cy allowDiag) :
    VisitOk g noCC allowDiag cx cy curD dist0 (bfsVisit g noCC cx cy curD st nx ny isDiag) := by
  unfold bfsVisit
  split
  · exact hst
  split
  · exact hst
  split
  · exact hst
  dsimp only
  split
  · exact hst
  rename_i hin hwk hdg hfresh
  have hin2 : g.inBounds nx ny = true := by
    revert hin
    cases g.inBounds nx ny <;> simp
  have hwk2 : g.isWalkable nx ny = true := by
    revert hwk
    cases g.isWalkable nx ny <;> simp
  have h0 : st.1.getD (g.idx nx ny).toNat 0 = -1 := by
    simpa using hfresh
  have hni_lt : (g.idx nx ny).toNat < st.1.length := by
    by_contra hge
    push_neg at hge
    rw [getD_out_of_range _ _ _ hge] at h0
    exact absurd h0 (by decide)
  have hni_val : st.1.getD (g.idx nx ny).toNat (-1) = -1 := by
    rw [getD_congr_default _ _ _ 0 hni_lt]
    exact h0
  have hni_not_mem : (g.idx nx ny).toNat ∉ st.2 := by
    intro hmem2
    have := hst.val _ hmem2
    omega
  have hd0 : dist0.getD (g.idx nx ny).toNat (-1) = -1 := by
    rw [← hst.untouched _ hni_not_mem]
    exact hni_val
  refine ⟨?_, ?_, ?_, ?_, ?_, ?_, ?_, ?_, ?_⟩
  · rw [List.length_set]
    exact hst.len
  · intro j hj
    rw [List.mem_append, List.mem_singleton] at hj
    push_neg at hj
    rw [getD_set_ne _ _ _ _ _ (fun he => hj.2 he.symm)]
    exact hst.untouched j hj.1
  · intro j hj
    rw [List.mem_append, List.mem_singleton] at hj
    rcases hj with hj | hj
    · exact hst.fresh j hj
    · rw [hj]
      exact hd0
  · intro j hj
    rw [List.mem_append, List.mem_singleton] at hj
    rcases hj with hj | hj
    · rw [getD_set_ne _ _ _ _ _ (fun he => hni_not_mem (by rw [he]; exact hj))]
      exact hst.val j hj
    · rw [hj, getD_set_self _ _ _ _ hni_lt]
  · intro j hj
    rw [List.mem_append, List.mem_singleton] at hj
    rcases hj with hj | hj
    · exact hst.lt j hj
    · rw [hj, ← hst.len]
      exact hni_lt
  · intro j hj
    rw [List.mem_append, List.mem_singleton] at hj
    rcases hj with hj | hj
    · exact hst.walk j hj
    · rw [hj]
      unfold walkI
      rw [g.cellX_idx _ _ hin2, g.cellY_idx _ _ hin2]
      exact hwk2
  · rw [List.nodup_append]
    refine ⟨hst.nodup, List.nodup_singleton _, ?_⟩
    intro a ha hb
    rw [List.mem_singleton] at hb
    exact hni_not_mem (hb ▸ ha)
  · intro j hj
    rw [List.mem_append, List.mem_singleton] at hj
    rcases hj with hj | hj
    · exact hst.adj j hj
    · refine ⟨(nx, ny, isDiag), hmem, hj, hin2, hwk2, ?_⟩
      dsimp only
      intro hd
      revert hdg
      rw [hd]
      cases canStepDiag g noCC cx cy nx ny <;> simp
  · have hc := countP_set_neg1 st.1 (g.idx nx ny).toNat (curD + 1) hni_lt hni_val (by omega)
    have := hst.cnt
    simp only [List.length_append, List.length_singleton]
    omega

theorem bfsVisitFold_ok (g : NavGrid) (noCC allowDiag : Bool) (cx cy : ℤ) (curD : ℤ)
    (dist0 : List ℤ) (hcur : 0 ≤ curD)
    (L : List (ℤ × ℤ × Bool)) (hL : ∀ c ∈ L, c ∈ neighborCands cx cy allowDiag) :
    ∀ st, VisitOk g noCC allowDiag cx cy curD dist0 st →
    VisitOk g noCC allowDiag cx cy curD dist0
      (L.foldl (fun st c => bfsVisit g noCC cx cy curD st c.1 c.2.1 c.2.2) st) := by
  induction L with
  | nil => intro st hst; exact hst
  | cons c t ih =>
    intro st hst
    rw [List.foldl_cons]
    refine ih (fun d hd => hL d (List.mem_cons_of_mem _ hd)) _ ?_
    have hm : (c.1, c.2.1, c.2.2) ∈ neighborCands cx cy allowDiag := by
      have := hL c (List.mem_cons_self _ _)
      simpa using this
    exact bfsVisit_ok g noCC allowDiag cx cy curD dist0 hcur st hst c.1 c.2.1 c.2.2 hm

theorem bfsStepNeighbors_ok (g : NavGrid) (noCC allowDiag : Bool) (dist : List ℤ) (cur : ℕ)
    (hcur : 0 ≤ dist.getD cur (-1)) :
    VisitOk g noCC allowDiag (g.cellX cur) (g.cellY cur) (dist.getD cur (-1)) dist
      (bfsStepNeighbors g noCC allowDiag dist cur) := by
  unfold bfsStepNeighbors
  exact bfsVisitFold_ok g noCC allowDiag _ _ _ dist hcur _ (fun c hc => hc) _
    (visitOk_init g noCC allowDiag _ _ _ dist)

theorem bfsVisit_bound (g : NavGrid) (noCC allowDiag : Bool) (cx cy : ℤ) (curD : ℤ)
    (dist0 : List ℤ) (hcur : 0 ≤ curD)
    (hvals : ∀ j : ℕ, dist0.getD j (-1) = -1 ∨ 0 ≤ dist0.getD j (-1))
    (hbound : ∀ j : ℕ, dist0.getD j (-1) ≠ -1 → dist0.getD j (-1) ≤ curD + 1)
    (st : List ℤ × List ℕ) (hst : VisitOk g noCC allowDiag cx cy curD dist0 st)
    (nx ny : ℤ) (isDiag : Bool)
    (hin : g.inBounds nx ny = true) (hwk : g.isWalkable nx ny = true)
    (hdg : isDiag = true → canStepDiag g noCC cx cy nx ny = true)
    (hlen : (g.idx nx ny).toNat < dist0.length) :
    0 ≤ (bfsVisit g noCC cx cy curD st nx ny isDiag).1.getD (g.idx nx ny).toNat (-1) ∧
    (bfsVisit g noCC cx cy curD st nx ny isDiag).1.getD (g.idx nx ny).toNat (-1) ≤ curD + 1 := by
  have hlen' : (g.idx nx ny).toNat < st.1.length := by rw [hst.len]; exact hlen
  unfold bfsVisit
  split
  · rename_i h
    rw [hin] at h
    simp at h
  split
  · rename_i h
    rw [hwk] at h
    simp at h
  split
  · rename_i h
    exfalso
    cases hd : isDiag with
    | false =>
      rw [hd] at h
      simp at h
    | true =>
      rw [hd, hdg hd] at h
      simp at h
  dsimp only
  split
  · rename_i h
    have h2 : st.1.getD (g.idx nx ny).toNat (-1) ≠ -1 := by
      rw [getD_congr_default _ _ _ 0 hlen']
      simpa using h
    by_cases hm : (g.idx nx ny).toNat ∈ st.2
    · rw [hst.val _ hm]
      omega
    · rw [hst.untouched _ hm]
      rw [hst.untouched _ hm] at h2
      rcases hvals (g.idx nx ny).toNat with hv | hv
      · exact absurd hv h2
      · exact ⟨hv, hbound _ h2⟩
  · rw [getD_set_self _ _ _ _ hlen']
    omega

theorem visitFold_bound (g : NavGrid) (noCC allowDiag : Bool) (cx cy : ℤ) (curD : ℤ)
    (dist0 : List ℤ) (hcur : 0 ≤ curD)
    (hvals : ∀ j : ℕ, dist0.getD j (-1) = -1 ∨ 0 ≤ dist0.getD j (-1))
    (hbound : ∀ j : ℕ, dist0.getD j (-1) ≠ -1 → dist0.getD j (-1) ≤ curD + 1)
    (L : List (ℤ × ℤ × Bool)) (hL : ∀ c ∈ L, c ∈ neighborCands cx cy allowDiag) :
    ∀ st, VisitOk g noCC allowDiag cx cy curD dist0 st →
    ∀ c ∈ L, g.inBounds c.1 c.2.1 = true → g.isWalkable c.1 c.2.1 = true →
      (c.2.2 = true → canStepDiag g noCC cx cy c.1 c.2.1 = true) →
      (g.idx c.1 c.2.1).toNat < dist0.length →
      0 ≤ (L.foldl (fun st c => bfsVisit g noCC cx cy curD st c.1 c.2.1 c.2.2) st).1.getD
            (g.idx c.1 c.2.1).toNat (-1) ∧
      (L.foldl (fun st c => bfsVisit g noCC cx cy curD st c.1 c.2.1 c.2.2) st).1.getD
            (g.idx c.1 c.2.1).toNat (-1) ≤ curD + 1 := by
  induction L with
  | nil =>
    intro st _ c hc
    exact absurd hc (List.not_mem_nil c)
  | cons c0 t ih =>
    intro st hst c hc hin hwk hdg hlen
    rw [List.foldl_cons]
    have hm0 : (c0.1, c0.2.1, c0.2.2) ∈ neighborCands cx cy allowDiag := by
      simpa using hL c0 (List.mem_cons_self _ _)
    have hst' := bfsVisit_ok g noCC allowDiag cx cy curD dist0 hcur st hst c0.1 c0.2.1 c0.2.2 hm0
    rcases List.mem_cons.mp hc with hceq | hct
    · subst hceq
      have hb := bfsVisit_bound g noCC allowDiag cx cy curD dist0 hcur hvals hbound st hst
        c.1 c.2.1 c.2.2 hin hwk hdg hlen
      have hpres := visitFold_preserve g noCC cx cy curD t
        (bfsVisit g noCC cx cy curD st c.1 c.2.1 c.2.2) (g.idx c.1 c.2.1).toNat
        (by omega)
      rw [hpres]
      exact hb
    · exact ih (fun d hd => hL d (List.mem_cons_of_mem _ hd)) _ hst' c hct hin hwk hdg hlen

/-! ## BFS invariant, worklist layer -/

theorem loopInv_init (g : NavGrid) (noCC allowDiag : Bool) (seed : ℕ)
    (hseed : walkI g seed = true) :
    LoopInv g noCC allowDiag seed ((List.replicate g.size (-1 : ℤ)).set seed 0)
      [seed] [seed] := by
  have hlt : seed < g.size := lt_size_of_walkI g seed hseed
  have hlen : ((List.replicate g.size (-1 : ℤ)).set seed 0).length = g.size := by
    rw [List.length_set, List.length_replicate]
  have hzero : ((List.replicate g.size (-1 : ℤ)).set seed 0).getD seed (-1) = 0 :=
    getD_set_self _ _ _ _ (by rw [List.length_replicate]; exact hlt)
  have hother : ∀ i : ℕ, i ≠ seed →
      ((List.replicate g.size (-1 : ℤ)).set seed 0).getD i (-1) = -1 := by
    intro i hi
    rw [getD_set_ne _ _ _ _ _ (fun he => hi he.symm)]
    exact getD_replicate_self _ _ _
  refine ⟨hlen, ⟨[], rfl, fun u hu => absurd hu (List.not_mem_nil u)⟩, ?_, ?_, ?_, ?_, ?_, ?_,
    ?_, ?_, List.mem_singleton_self seed, hzero, ?_⟩
  · intro i hi
    rw [List.mem_singleton] at hi
    exact hi ▸ hlt
  · intro i hi
    rw [List.mem_singleton] at hi
    exact hi ▸ hseed
  · intro i hi
    rw [List.mem_singleton] at hi
    rw [hi, hzero]
  · intro i hi
    rw [List.mem_singleton] at hi
    exact hother i hi
  · exact List.nodup_singleton seed
  · exact List.pairwise_singleton _ seed
  · intro p hp v hv
    rw [List.mem_singleton] at hv
    have hps : p = seed := by
      have := hp
      simp at this
      omega
    rw [hv, hps, hzero]
    omega
  · intro v hv hne
    rw [List.mem_singleton] at hv
    exact absurd hv hne
  · intro v hv hne
    rw [List.mem_singleton] at hv
    exact absurd hv hne

theorem bfsStep_inv (g : NavGrid) (noCC allowDiag : Bool) (seed cur : ℕ)
    (rest emitted : List ℕ) (dist : List ℤ)
    (hInv : LoopInv g noCC allowDiag seed dist (cur :: rest) emitted) :
    LoopInv g noCC allowDiag seed (bfsStepNeighbors g noCC allowDiag dist cur).1
      (rest ++ (bfsStepNeighbors g noCC allowDiag dist cur).2)
      (emitted ++ (bfsStepNeighbors g noCC allowDiag dist cur).2) ∧
    (bfsStepNeighbors g noCC allowDiag dist cur).1.countP (· == -1) +
      (rest ++ (bfsStepNeighbors g noCC allowDiag dist cur).2).length + 1 =
      dist.countP (· == -1) + (cur :: rest).length := by
  obtain ⟨processed, hsplit, hproc⟩ := hInv.split
  have hcur_mem : cur ∈ emitted := by
    rw [hsplit]
    exact List.mem_append_right _ (List.mem_cons_self _ _)
  have hcurD : 0 ≤ dist.getD cur (-1) := hInv.mem_nonneg cur hcur_mem
  have hOk : VisitOk g noCC allowDiag (g.cellX cur) (g.cellY cur) (dist.getD cur (-1)) dist
      (bfsStepNeighbors g noCC allowDiag dist cur) :=
    bfsStepNeighbors_ok g noCC allowDiag dist cur hcurD
  set s := bfsStepNeighbors g noCC allowDiag dist cur with hs
  have hband := hInv.band cur (Option.mem_def.mpr rfl)
  have hvals : ∀ j : ℕ, dist.getD j (-1) = -1 ∨ 0 ≤ dist.getD j (-1) := by
    intro j
    by_cases hj : j ∈ emitted
    · exact Or.inr (hInv.mem_nonneg j hj)
    · exact Or.inl (hInv.unvisited j hj)
  have hbound : ∀ j : ℕ, dist.getD j (-1) ≠ -1 →
      dist.getD j (-1) ≤ dist.getD cur (-1) + 1 := by
    intro j hj
    by_cases hm : j ∈ emitted
    · exact hband j hm
    · exact absurd (hInv.unvisited j hm) hj
  have F1 : ∀ j ∈ emitted, s.1.getD j (-1) = dist.getD j (-1) := by
    intro j hj
    rw [hs]
    exact bfsStepNeighbors_preserve g noCC allowDiag dist cur j
      (by have := hInv.mem_nonneg j hj; omega)
  have F2 : ∀ j ∈ s.2, s.1.getD j (-1) = dist.getD cur (-1) + 1 := hOk.val
  have F3 : ∀ j ∈ s.2, j ∉ emitted := by
    intro j hj hmem
    have h1 := hOk.fresh j hj
    have h2 := hInv.mem_nonneg j hmem
    omega
  have F4 : ∀ j : ℕ, j ∉ emitted → j ∉ s.2 → s.1.getD j (-1) = -1 := by
    intro j h1 h2
    rw [hOk.untouched j h2]
    exact hInv.unvisited j h1
  have F5 : s.1.getD cur (-1) = dist.getD cur (-1) := F1 cur hcur_mem
  have hmono_pend :
      List.Pairwise (fun a b => dist.getD a (-1) ≤ dist.getD b (-1)) (cur :: rest) := by
    have hm := hInv.mono
    rw [hsplit] at hm
    exact (List.pairwise_append.mp hm).2.1
  have F7 : ∀ b ∈ rest, dist.getD cur (-1) ≤ dist.getD b (-1) :=
    (List.pairwise_cons.mp hmono_pend).1
  have hsfold : s = (neighborCands (g.cellX cur) (g.cellY cur) allowDiag).foldl
      (fun st c => bfsVisit g noCC (g.cellX cur) (g.cellY cur) (dist.getD cur (-1))
        st c.1 c.2.1 c.2.2) (dist, []) := by
    rw [hs]
    rfl
  have hcurBound : ∀ c ∈ neighborCands (g.cellX cur) (g.cellY cur) allowDiag,
      g.inBounds c.1 c.2.1 = true → g.isWalkable c.1 c.2.1 = true →
      (c.2.2 = true → canStepDiag g noCC (g.cellX cur) (g.cellY cur) c.1 c.2.1 = true) →
      0 ≤ s.1.getD (g.idx c.1 c.2.1).toNat (-1) ∧
      s.1.getD (g.idx c.1 c.2.1).toNat (-1) ≤ dist.getD cur (-1) + 1 := by
    intro c hc hin hwk hdg
    have hnc_lt : (g.idx c.1 c.2.1).toNat < dist.length := by
      rw [hInv.len]
      exact g.toNat_idx_lt _ _ hin
    rw [hsfold]
    exact visitFold_bound g noCC allowDiag _ _ _ dist hcurD hvals hbound _ (fun d hd => hd)
      (dist, []) (visitOk_init g noCC allowDiag _ _ _ dist) c hc hin hwk hdg hnc_lt
  constructor
  · refine ⟨?_, ⟨processed ++ [cur], ?_, ?_⟩, ?_, ?_, ?_, ?_, ?_, ?_, ?_, ?_, ?_, ?_, ?_⟩
    · rw [hs, bfsStepNeighbors_length]
      exact hInv.len
    · rw [hsplit]
      simp
    · intro u hu c hc hin hwk hdg
      rcases List.mem_append.mp hu with hu | hu
      · have hold := hproc u hu c hc hin hwk hdg
        have hu_mem : u ∈ emitted := by
          rw [hsplit]
          exact List.mem_append_left _ hu
        have hnc : s.1.getD (g.idx c.1 c.2.1).toNat (-1) =
            dist.getD (g.idx c.1 c.2.1).toNat (-1) := by
          rw [hs]
          exact bfsStepNeighbors_preserve g noCC allowDiag dist cur _ (by omega)
        rw [hnc, F1 u hu_mem]
        exact hold
      · rw [List.mem_singleton] at hu
        subst hu
        rw [F5]
        exact hcurBound c hc hin hwk hdg
    · intro i hi
      rcases List.mem_append.mp hi with hi | hi
      · exact hInv.mem_lt i hi
      · have := hOk.lt i hi
        rw [hInv.len] at this
        exact this
    · intro i hi
      rcases List.mem_append.mp hi with hi | hi
      · exact hInv.mem_walk i hi
      · exact hOk.walk i hi
    · intro i hi
      rcases List.mem_append.mp hi with hi | hi
      · rw [F1 i hi]
        exact hInv.mem_nonneg i hi
      · rw [F2 i hi]
        omega
    · intro i hi
      rw [List.mem_append] at hi
      push_neg at hi
      exact F4 i hi.1 hi.2
    · rw [List.nodup_append]
      exact ⟨hInv.nodup, hOk.nodup, fun a ha hb => F3 a hb ha⟩
    · rw [List.pairwise_append]
      refine ⟨hInv.mono.imp_of_mem ?_, List.pairwise_of_forall_mem_list ?_, ?_⟩
      · intro a b ha hb hab
        rw [F1 a ha, F1 b hb]
        exact hab
      · intro a ha b hb
        rw [F2 a ha, F2 b hb]
      · intro a ha b hb
        rw [F1 a ha, F2 b hb]
        exact hband a ha
    · intro p hp v hv
      cases rest with
      | nil =>
        rw [List.nil_append] at hp
        have hps : p ∈ s.2 := List.mem_of_mem_head? hp
        rw [F2 p hps]
        rcases List.mem_append.mp hv with hv | hv
        · rw [F1 v hv]
          have := hband v hv
          omega
        · rw [F2 v hv]
          omega
      | cons r0 rest' =>
        have hpr : p = r0 := by
          have := hp
          simp at this
          omega
        subst hpr
        have hr0_mem : p ∈ emitted := by
          rw [hsplit]
          exact List.mem_append_right _ (List.mem_cons_of_mem _ (List.mem_cons_self _ _))
        have hr0_ge : dist.getD cur (-1) ≤ dist.getD p (-1) :=
          F7 p (List.mem_cons_self _ _)
        rw [F1 p hr0_mem]
        rcases List.mem_append.mp hv with hv | hv
        · rw [F1 v hv]
          have := hband v hv
          omega
        · rw [F2 v hv]
          omega
    · intro v hv hne
      rcases List.mem_append.mp hv with hv | hv
      · obtain ⟨u, hu1, hu2, hu3, hu4, c, hc, hceq, hcin, hcdg⟩ := hInv.parent v hv hne
        refine ⟨u, hu1, hu2, ?_, ?_, c, hc, hceq, hcin, hcdg⟩
        · rw [hs]
          rw [bfsStepNeighbors_preserve g noCC allowDiag dist cur u (by omega)]
          exact hu3
        · rw [hs, bfsStepNeighbors_preserve g noCC allowDiag dist cur u (by omega),
            bfsStepNeighbors_preserve g noCC allowDiag dist cur v (by omega)]
          exact hu4
      · obtain ⟨c, hc, hveq, hcin, _, hcdg⟩ := hOk.adj v hv
        refine ⟨cur, hInv.mem_lt cur hcur_mem, hInv.mem_walk cur hcur_mem, ?_, ?_,
          c, hc, hveq, hcin, hcdg⟩
        · rw [F5]
          exact hcurD
        · rw [F2 v hv, F5]
    · exact List.mem_append_left _ hInv.seed_mem
    · rw [F1 seed hInv.seed_mem]
      exact hInv.seed_zero
    · intro v hv hne
      rcases List.mem_append.mp hv with hv | hv
      · rw [F1 v hv]
        exact hInv.pos v hv hne
      · rw [F2 v hv]
        omega
  · have hc := hOk.cnt
    simp only [List.length_append, List.length_cons]
    omega

theorem bfsLoop_inv (g : NavGrid) (noCC allowDiag : Bool) (seed : ℕ) (fuel : ℕ) :
    ∀ (dist : List ℤ) (pending emitted : List ℕ),
    LoopInv g noCC allowDiag seed dist pending emitted →
    dist.countP (· == -1) + pending.length ≤ fuel →
    LoopInv g noCC allowDiag seed
      (bfsLoop g noCC allowDiag fuel dist pending emitted).1
      (bfsLoop g noCC allowDiag fuel dist pending emitted).2.1
      (bfsLoop g noCC allowDiag fuel dist pending emitted).2.2 ∧
    (bfsLoop g noCC allowDiag fuel dist pending emitted).2.1 = [] := by
  induction fuel with
  | zero =>
    intro dist pending emitted hInv hf
    cases pending with
    | nil => exact ⟨hInv, rfl⟩
    | cons a t =>
      simp only [List.length_cons] at hf
      omega
  | succ n ih =>
    intro dist pending emitted hInv hf
    cases pending with
    | nil => exact ⟨hInv, rfl⟩
    | cons cur rest =>
      obtain ⟨hInv2, hcnt⟩ := bfsStep_inv g noCC allowDiag seed cur rest emitted dist hInv
      have hred : bfsLoop g noCC allowDiag (n + 1) dist (cur :: rest) emitted =
          bfsLoop g noCC allowDiag n (bfsStepNeighbors g noCC allowDiag dist cur).1
            (rest ++ (bfsStepNeighbors g noCC allowDiag dist cur).2)
            (emitted ++ (bfsStepNeighbors g noCC allowDiag dist cur).2) := rfl
      rw [hred]
      apply ih _ _ _ hInv2
      simp only [List.length_cons] at hf hcnt
      omega

theorem rebuild_final_inv (g : NavGrid) (noCC allowDiag : Bool) (seed : ℕ)
    (hseed : walkI g seed = true) :
    LoopInv g noCC allowDiag seed
      (bfsLoop g noCC allowDiag
        (((List.replicate g.size (-1 : ℤ)).set seed 0).countP (· == -1) + 1)
        ((List.replicate g.size (-1 : ℤ)).set seed 0) [seed] [seed]).1
      []
      (bfsLoop g noCC allowDiag
        (((List.replicate g.size (-1 : ℤ)).set seed 0).countP (· == -1) + 1)
        ((List.replicate g.size (-1 : ℤ)).set seed 0) [seed] [seed]).2.2 := by
  have h := bfsLoop_inv g noCC allowDiag seed
      (((List.replicate g.size (-1 : ℤ)).set seed 0).countP (· == -1) + 1)
      ((List.replicate g.size (-1 : ℤ)).set seed 0) [seed] [seed]
      (loopInv_init g noCC allowDiag seed hseed) (by simp)
  obtain ⟨hi, hp⟩ := h
  rw [hp] at hi
  exact hi

theorem rebuild_dist_eq (g : NavGrid) (ff : FlowField) (seed : ℕ)
    (hw : ¬(g.w = 0 ∨ g.h = 0))
    (hseed : g.isWalkable (g.cellX seed) (g.cellY seed) = true) :
    (ff.rebuildFromTargetIdx g seed).dist =
      (bfsLoop g ff.noCornerCutting ff.useDiagonals
        (((List.replicate g.size (-1 : ℤ)).set seed 0).countP (· == -1) + 1)
        ((List.replicate g.size (-1 : ℤ)).set seed 0) [seed] [seed]).1 := by
  unfold FlowField.rebuildFromTargetIdx
  rw [if_neg hw]
  dsimp only
  rw [if_neg (by simp [hseed])]

theorem rebuild_dist_unwalkable (g : NavGrid) (ff : FlowField) (seed : ℕ)
    (hw : ¬(g.w = 0 ∨ g.h = 0))
    (hseed : ¬ g.isWalkable (g.cellX seed) (g.cellY seed) = true) :
    (ff.rebuildFromTargetIdx g seed).dist = List.replicate g.size (-1) := by
  unfold FlowField.rebuildFromTargetIdx
  rw [if_neg hw]
  dsimp only
  rw [if_pos (by revert hseed; cases g.isWalkable (g.cellX seed) (g.cellY seed) <;> simp)]

theorem rebuild_loopInv (g : NavGrid) (ff : FlowField) (seed : ℕ)
    (hw : ¬(g.w = 0 ∨ g.h = 0))
    (hseed : g.isWalkable (g.cellX seed) (g.cellY seed) = true) :
    ∃ emitted : List ℕ,
      LoopInv g ff.noCornerCutting ff.useDiagonals seed
        (ff.rebuildFromTargetIdx g seed).dist [] emitted := by
  rw [rebuild_dist_eq g ff seed hw hseed]
  exact ⟨_, rebuild_final_inv g ff.noCornerCutting ff.useDiagonals seed hseed⟩

theorem loopInv_complete_bound (g : NavGrid) (noCC allowDiag : Bool) (seed : ℕ)
    (dist : List ℤ) (emitted : List ℕ)
    (hInv : LoopInv g noCC allowDiag seed dist [] emitted) :
    ∀ u ∈ emitted, ∀ c ∈ neighborCands (g.cellX u) (g.cellY u) allowDiag,
      g.inBounds c.1 c.2.1 = true → g.isWalkable c.1 c.2.1 = true →
      (c.2.2 = true → canStepDiag g noCC (g.cellX u) (g.cellY u) c.1 c.2.1 = true) →
      0 ≤ dist.getD (g.idx c.1 c.2.1).toNat (-1) ∧
      dist.getD (g.idx c.1 c.2.1).toNat (-1) ≤ dist.getD u (-1) + 1 := by
  obtain ⟨processed, hsplit, hproc⟩ := hInv.split
  rw [List.append_nil] at hsplit
  intro u hu
  exact hproc u (hsplit ▸ hu)

theorem length_le_of_nodup_lt (l : List ℕ) (n : ℕ) (hnd : l.Nodup)
    (hlt : ∀ i ∈ l, i < n) : l.length ≤ n := by
  have h1 : l.toFinset.card = l.length := List.toFinset_card_of_nodup hnd
  have h2 : l.toFinset ⊆ Finset.range n := by
    intro x hx
    rw [List.mem_toFinset] at hx
    rw [Finset.mem_range]
    exact hlt x hx
  have h3 := Finset.card_le_card h2
  rw [h1, Finset.card_range] at h3
  exact h3

/-- C10: during any rebuild, the BFS enqueues each cell index at most once
(the ever-enqueued list has no duplicates), every enqueued index addresses a
valid grid cell, and the total number of enqueues never exceeds the queue's
fixed capacity of `w * h` entries, so the preallocated buffer cannot
overflow. -/
theorem rebuild_queue_no_overflow (g : NavGrid) (ff : FlowField) (targetIdx : ℕ) :
    (ff.rebuildEnqueued g targetIdx).Nodup ∧
    (∀ i ∈ ff.rebuildEnqueued g targetIdx, i < g.size) ∧
    (ff.rebuildEnqueued g targetIdx).length ≤ g.size := by
  unfold FlowField.rebuildEnqueued
  split
  · exact ⟨List.nodup_nil, fun i hi => absurd hi (List.not_mem_nil i), by simp⟩
  split
  · exact ⟨List.nodup_nil, fun i hi => absurd hi (List.not_mem_nil i), by simp⟩
  rename_i hw hseed
  have hseed2 : g.isWalkable (g.cellX targetIdx) (g.cellY targetIdx) = true := by
    revert hseed
    cases g.isWalkable (g.cellX targetIdx) (g.cellY targetIdx) <;> simp
  dsimp only
  have hInv := rebuild_final_inv g ff.noCornerCutting ff.useDiagonals targetIdx hseed2
  exact ⟨hInv.nodup, hInv.mem_lt, length_le_of_nodup_lt _ _ hInv.nodup hInv.mem_lt⟩

/-- C6: after any rebuild, for every walkable cell C with nonnegative
distance, every walkable orthogonal neighbour N has distance -1 (unreached)
or a distance within 1 of C's. -/
theorem bfs_distance_monotone (g : NavGrid) (ff : FlowField) (targetIdx : ℕ)
    (cx cy nx ny : ℤ)
    (hwalkC : g.isWalkable cx cy = true)
    (hwalkN : g.isWalkable nx ny = true)
    (horth : (nx = cx ∧ (ny = cy - 1 ∨ ny = cy + 1)) ∨
             (ny = cy ∧ (nx = cx - 1 ∨ nx = cx + 1)))
    (hdC : 0 ≤ (ff.rebuildFromTargetIdx g targetIdx).distanceAt g cx cy) :
    (ff.rebuildFromTargetIdx g targetIdx).distanceAt g nx ny = -1 ∨
    |(ff.rebuildFromTargetIdx g targetIdx).distanceAt g nx ny -
      (ff.rebuildFromTargetIdx g targetIdx).distanceAt g cx cy| ≤ 1 := by
  have hbC := g.isWalkable_inBounds _ _ hwalkC
  have hbN := g.isWalkable_inBounds _ _ hwalkN
  have hw0 : ¬(g.w = 0 ∨ g.h = 0) := by
    have h := hbC
    rw [NavGrid.inBounds_iff] at h
    omega
  have hdCeq : (ff.rebuildFromTargetIdx g targetIdx).distanceAt g cx cy =
      (ff.rebuildFromTargetIdx g targetIdx).dist.getD (g.idx cx cy).toNat (-1) := rfl
  have hdNeq : (ff.rebuildFromTargetIdx g targetIdx).distanceAt g nx ny =
      (ff.rebuildFromTargetIdx g targetIdx).dist.getD (g.idx nx ny).toNat (-1) := rfl
  by_cases hseed : g.isWalkable (g.cellX targetIdx) (g.cellY targetIdx) = true
  case neg =>
    exfalso
    rw [hdCeq, rebuild_dist_unwalkable g ff targetIdx hw0 hseed,
      getD_replicate_self] at hdC
    omega
  case pos =>
    obtain ⟨emitted, hInv⟩ := rebuild_loopInv g ff targetIdx hw0 hseed
    have hCmem : (g.idx cx cy).toNat ∈ emitted := by
      by_contra hcm
      rw [hdCeq, hInv.unvisited _ hcm] at hdC
      omega
    by_cases hNmem : (g.idx nx ny).toNat ∈ emitted
    case neg =>
      left
      rw [hdNeq]
      exact hInv.unvisited _ hNmem
    case pos =>
      right
      have hbound := loopInv_complete_bound g ff.noCornerCutting ff.useDiagonals targetIdx
        (ff.rebuildFromTargetIdx g targetIdx).dist emitted hInv
      have hcellXC := g.cellX_idx cx cy hbC
      have hcellYC := g.cellY_idx cx cy hbC
      have hcellXN := g.cellX_idx nx ny hbN
      have hcellYN := g.cellY_idx nx ny hbN
      have hmem1 : (nx, ny, false) ∈ neighborCands (g.cellX (g.idx cx cy).toNat)
          (g.cellY (g.idx cx cy).toNat) ff.useDiagonals := by
        rw [hcellXC, hcellYC]
        rcases horth with ⟨hx, hy | hy⟩ | ⟨hy, hx | hx⟩ <;> rw [hx, hy] <;>
          simp [neighborCands]
      have hmem2 : (cx, cy, false) ∈ neighborCands (g.cellX (g.idx nx ny).toNat)
          (g.cellY (g.idx nx ny).toNat) ff.useDiagonals := by
        rw [hcellXN, hcellYN]
        rcases horth with ⟨hx, hy | hy⟩ | ⟨hy, hx | hx⟩
        · have e1 : cx = nx := hx.symm
          have e2 : cy = ny + 1 := by omega
          rw [e1, e2]
          simp [neighborCands]
        · have e1 : cx = nx := hx.symm
          have e2 : cy = ny - 1 := by omega
          rw [e1, e2]
          simp [neighborCands]
        · have e1 : cy = ny := hy.symm
          have e2 : cx = nx + 1 := by omega
          rw [e1, e2]
          simp [neighborCands]
        · have e1 : cy = ny := hy.symm
          have e2 : cx = nx - 1 := by omega
          rw [e1, e2]
          simp [neighborCands]
      have h1 := hbound (g.idx cx cy).toNat hCmem (nx, ny, false) hmem1 hbN hwalkN
        (by intro h; simp at h)
      have h2 := hbound (g.idx nx ny).toNat hNmem (cx, cy, false) hmem2 hbC hwalkC
        (by intro h; simp at h)
      dsimp only at h1 h2
      rw [hdCeq, hdNeq, abs_le]
      constructor <;> omega

set_option maxRecDepth 8000 in
/-- Witness for C6: on the 4×4 all-walkable grid rebuilt from seed cell 10,
cell (1,1) has distance 1 ≥ 0 and its orthogonal neighbour (1,2) has distance
within 1 of it. -/
theorem bfs_distance_monotone_witness :
    (0 : ℤ) ≤ ((FlowField.init c3Grid).rebuildFromTargetIdx c3Grid 10).distanceAt c3Grid 1 1 ∧
    (((FlowField.init c3Grid).rebuildFromTargetIdx c3Grid 10).distanceAt c3Grid 1 2 = -1 ∨
     |((FlowField.init c3Grid).rebuildFromTargetIdx c3Grid 10).distanceAt c3Grid 1 2 -
       ((FlowField.init c3Grid).rebuildFromTargetIdx c3Grid 10).distanceAt c3Grid 1 1| ≤ 1) :=
  ⟨by decide,
   bfs_distance_monotone c3Grid (FlowField.init c3Grid) 10 1 1 1 2 (by decide) (by decide)
     (by decide) (by decide)⟩

/-- C4: after any rebuild, at every in-bounds cell: a cell with distance 0
(the seed) or −1 (unreached) keeps direction 0 (no direction); and a walkable
cell with distance > 0 gets the direction code of the first admissible
candidate — in the precedence order up, right, down, left, then the four
diagonals — whose discovered distance is the strict minimum: it is
nonnegative, strictly below the cell's own distance, strictly below every
earlier admissible candidate's nonnegative distance, and at most every later
one's. -/
theorem flow_direction_argmin (g : NavGrid) (ff : FlowField) (targetIdx : ℕ) (tx ty : ℤ)
    (hb : g.inBounds tx ty = true) :
    ((ff.rebuildFromTargetIdx g targetIdx).distanceAt g tx ty ≤ 0 →
      (ff.rebuildFromTargetIdx g targetIdx).directionAt g tx ty = 0) ∧
    (g.isWalkable tx ty = true →
      0 < (ff.rebuildFromTargetIdx g targetIdx).distanceAt g tx ty →
      ∃ k, k < (dirCands tx ty ff.useDiagonals).length ∧
        considerOk g ff.noCornerCutting ff.useDiagonals tx ty
          ((dirCands tx ty ff.useDiagonals).getD k dummyCand) = true ∧
        0 ≤ cVal g (ff.rebuildFromTargetIdx g targetIdx).dist
          ((dirCands tx ty ff.useDiagonals).getD k dummyCand) ∧
        cVal g (ff.rebuildFromTargetIdx g targetIdx).dist
            ((dirCands tx ty ff.useDiagonals).getD k dummyCand) <
          (ff.rebuildFromTargetIdx g targetIdx).distanceAt g tx ty ∧
        (ff.rebuildFromTargetIdx g targetIdx).directionAt g tx ty =
          ((dirCands tx ty ff.useDiagonals).getD k dummyCand).2.2.1 ∧
        (∀ j, j < k → considerOk g ff.noCornerCutting ff.useDiagonals tx ty
            ((dirCands tx ty ff.useDiagonals).getD j dummyCand) = true →
          cVal g (ff.rebuildFromTargetIdx g targetIdx).dist
            ((dirCands tx ty ff.useDiagonals).getD j dummyCand) < 0 ∨
          cVal g (ff.rebuildFromTargetIdx g targetIdx).dist
              ((dirCands tx ty ff.useDiagonals).getD k dummyCand) <
            cVal g (ff.rebuildFromTargetIdx g targetIdx).dist
              ((dirCands tx ty ff.useDiagonals).getD j dummyCand)) ∧
        (∀ j, k < j → j < (dirCands tx ty ff.useDiagonals).length →
          considerOk g ff.noCornerCutting ff.useDiagonals tx ty
            ((dirCands tx ty ff.useDiagonals).getD j dummyCand) = true →
          cVal g (ff.rebuildFromTargetIdx g targetIdx).dist
            ((dirCands tx ty ff.useDiagonals).getD j dummyCand) < 0 ∨
          cVal g (ff.rebuildFromTargetIdx g targetIdx).dist
              ((dirCands tx ty ff.useDiagonals).getD k dummyCand) ≤
            cVal g (ff.rebuildFromTargetIdx g targetIdx).dist
              ((dirCands tx ty ff.useDiagonals).getD j dummyCand))) := by
  rcases rebuild_dir_cases g ff targetIdx tx ty hb with
    ⟨h0, hreason⟩ | ⟨hwk0, hpos, k, hk, hok, h0k, hkb, hcode, hearly, hlate⟩
  · constructor
    · intro _
      exact h0
    · intro hwk hdpos
      exfalso
      rcases hreason with hwf | hdle | hall
      · rw [hwf] at hwk
        exact absurd hwk (by decide)
      · omega
      · have hw0 : ¬(g.w = 0 ∨ g.h = 0) := by
          have h := hb
          rw [NavGrid.inBounds_iff] at h
          omega
        have hdAt : (ff.rebuildFromTargetIdx g targetIdx).distanceAt g tx ty =
            (ff.rebuildFromTargetIdx g targetIdx).dist.getD (g.idx tx ty).toNat (-1) := rfl
        by_cases hseed : g.isWalkable (g.cellX targetIdx) (g.cellY targetIdx) = true
        case neg =>
          rw [hdAt, rebuild_dist_unwalkable g ff targetIdx hw0 hseed,
            getD_replicate_self] at hdpos
          omega
        case pos =>
          obtain ⟨emitted, hInv⟩ := rebuild_loopInv g ff targetIdx hw0 hseed
          have hvmem : (g.idx tx ty).toNat ∈ emitted := by
            by_contra hvm
            rw [hdAt, hInv.unvisited _ hvm] at hdpos
            omega
          have hvne : (g.idx tx ty).toNat ≠ targetIdx := by
            intro he
            rw [hdAt, he, hInv.seed_zero] at hdpos
            omega
          obtain ⟨u, hu_lt, hu_walk, hu_nonneg, hu_val, c, hc, hceq, hcin, hcdg⟩ :=
            hInv.parent _ hvmem hvne
          have hu_walk2 : g.isWalkable (g.cellX u) (g.cellY u) = true := hu_walk
          have hc1 : c.1 = tx := by
            have h1 : g.cellX (g.idx tx ty).toNat = c.1 := by
              rw [hceq]
              exact g.cellX_idx c.1 c.2.1 hcin
            exact h1.symm.trans (g.cellX_idx tx ty hb)
          have hc2 : c.2.1 = ty := by
            have h1 : g.cellY (g.idx tx ty).toNat = c.2.1 := by
              rw [hceq]
              exact g.cellY_idx c.1 c.2.1 hcin
            exact h1.symm.trans (g.cellY_idx tx ty hb)
          have huw : 0 < g.w ∧ 0 < g.h := by
            have h := hb
            rw [NavGrid.inBounds_iff] at h
            exact ⟨by omega, by omega⟩
          have huidx : (g.idx (g.cellX u) (g.cellY u)).toNat = u :=
            g.idx_cell u huw.1 huw.2 hu_lt
          have huin : g.inBounds (g.cellX u) (g.cellY u) = true :=
            g.isWalkable_inBounds _ _ hu_walk2
          have hfin : ∀ (px py code : ℤ) (flag : Bool),
              (px, py, code, flag) ∈ dirCands tx ty ff.useDiagonals →
              px = g.cellX u → py = g.cellY u →
              (flag = true →
                canStepDiag g ff.noCornerCutting (g.cellX u) (g.cellY u) tx ty = true) →
              False := by
            intro px py code flag hmem hpx hpy hflag
            have hokc : considerOk g ff.noCornerCutting ff.useDiagonals tx ty
                (px, py, code, flag) = true := by
              unfold considerOk
              dsimp only
              rw [hpx, hpy, hu_walk2, huin]
              cases hflg : flag with
              | false => simp
              | true =>
                have hcs := hflag hflg
                rw [canStepDiag_symm] at hcs
                simp [hcs]
            have hvalc : cVal g (ff.rebuildFromTargetIdx g targetIdx).dist
                (px, py, code, flag) =
                (ff.rebuildFromTargetIdx g targetIdx).dist.getD u (-1) := by
              unfold cVal
              dsimp only
              rw [hpx, hpy, huidx]
            have hres := hall (px, py, code, flag) hmem hokc
            rw [hvalc, hdAt] at hres
            omega
          rcases List.mem_append.mp hc with hc4 | hcd
          · simp only [List.mem_cons, List.not_mem_nil, or_false] at hc4
            rcases hc4 with hce | hce | hce | hce
            · rw [hce] at hc1 hc2
              dsimp only at hc1 hc2
              apply hfin tx (ty + 1) 3 false
              · simp [dirCands]
              · omega
              · omega
              · intro h
                simp at h
            · rw [hce] at hc1 hc2
              dsimp only at hc1 hc2
              apply hfin (tx - 1) ty 4 false
              · simp [dirCands]
              · omega
              · omega
              · intro h
                simp at h
            · rw [hce] at hc1 hc2
              dsimp only at hc1 hc2
              apply hfin tx (ty - 1) 1 false
              · simp [dirCands]
              · omega
              · omega
              · intro h
                simp at h
            · rw [hce] at hc1 hc2
              dsimp only at hc1 hc2
              apply hfin (tx + 1) ty 2 false
              · simp [dirCands]
              · omega
              · omega
              · intro h
                simp at h
          · cases had : ff.useDiagonals with
            | false =>
              rw [had] at hcd
              simp at hcd
            | true =>
              rw [had, if_pos rfl] at hcd
              simp only [List.mem_cons, List.not_mem_nil, or_false] at hcd
              rcases hcd with hce | hce | hce | hce
              · rw [hce] at hc1 hc2 hcdg
                dsimp only at hc1 hc2 hcdg
                apply hfin (tx - 1) (ty + 1) 7 true
                · rw [had]
                  simp [dirCands]
                · omega
                · omega
                · intro _
                  have hcs := hcdg rfl
                  rw [hc1, hc2] at hcs
                  exact hcs
              · rw [hce] at hc1 hc2 hcdg
                dsimp only at hc1 hc2 hcdg
                apply hfin (tx - 1) (ty - 1) 8 true
                · rw [had]
                  simp [dirCands]
                · omega
                · omega
                · intro _
                  have hcs := hcdg rfl
                  rw [hc1, hc2] at hcs
                  exact hcs
              · rw [hce] at hc1 hc2 hcdg
                dsimp only at hc1 hc2 hcdg
                apply hfin (tx + 1) (ty - 1) 5 true
                · rw [had]
                  simp [dirCands]
                · omega
                · omega
                · intro _
                  have hcs := hcdg rfl
                  rw [hc1, hc2] at hcs
                  exact hcs
              · rw [hce] at hc1 hc2 hcdg
                dsimp only at hc1 hc2 hcdg
                apply hfin (tx + 1) (ty + 1) 6 true
                · rw [had]
                  simp [dirCands]
                · omega
                · omega
                · intro _
                  have hcs := hcdg rfl
                  rw [hc1, hc2] at hcs
                  exact hcs
  · constructor
    · intro hle
      omega
    · intro _ _
      exact ⟨k, hk, hok, h0k, hkb, hcode, hearly, hlate⟩

set_option maxRecDepth 8000 in
/-- Witness for C4: on the 4×4 all-walkable grid rebuilt from seed cell 10,
the seed cell (2,2) (distance 0) gets direction 0, and the corner cell (0,0)
(distance 2) has a first-argmin admissible candidate carrying its chosen
direction code. -/
theorem flow_direction_argmin_witness :
    ((FlowField.init c3Grid).rebuildFromTargetIdx c3Grid 10).directionAt c3Grid 2 2 = 0 ∧
    ∃ k, k < (dirCands 0 0 (FlowField.init c3Grid).useDiagonals).length ∧
      considerOk c3Grid (FlowField.init c3Grid).noCornerCutting
        (FlowField.init c3Grid).useDiagonals 0 0
        ((dirCands 0 0 (FlowField.init c3Grid).useDiagonals).getD k dummyCand) = true ∧
      0 ≤ cVal c3Grid ((FlowField.init c3Grid).rebuildFromTargetIdx c3Grid 10).dist
        ((dirCands 0 0 (FlowField.init c3Grid).useDiagonals).getD k dummyCand) ∧
      cVal c3Grid ((FlowField.init c3Grid).rebuildFromTargetIdx c3Grid 10).dist
          ((dirCands 0 0 (FlowField.init c3Grid).useDiagonals).getD k dummyCand) <
        ((FlowField.init c3Grid).rebuildFromTargetIdx c3Grid 10).distanceAt c3Grid 0 0 ∧
      ((FlowField.init c3Grid).rebuildFromTargetIdx c3Grid 10).directionAt c3Grid 0 0 =
        ((dirCands 0 0 (FlowField.init c3Grid).useDiagonals).getD k dummyCand).2.2.1 := by
  constructor
  · exact (flow_direction_argmin c3Grid (FlowField.init c3Grid) 10 2 2 (by decide)).1 (by decide)
  · obtain ⟨k, h1, h2, h3, h4, h5, _, _⟩ :=
      (flow_direction_argmin c3Grid (FlowField.init c3Grid) 10 0 0 (by decide)).2
        (by decide) (by decide)
    exact ⟨k, h1, h2, h3, h4, h5⟩
